import Mathlib

/-!
# Verification of the XSD → OpenAPI/JSON-LD converter core

A shallow embedding of the converter's core (XSD parsing, documentation
enumeration mining, and the four renderers) as executable Lean definitions,
together with theorems settling the specification claims.

Python-specific semantics are modelled explicitly:
* Python dictionaries are ordered association lists; assignment to an existing
  key updates it in place (`dinsert`), a fresh key is appended at the end.
* Python truthiness: `None` and `""` and `{}`/`[]` are falsy.
* The two documentation regexes are modelled as deterministic character-level
  parsers; for the character classes we model the ASCII fragment of `\d`, `\s`
  and `str.lower`/`str.strip` (the source is only ever applied to ASCII
  schema documentation).
-/

namespace S2P

/-- ASCII fragment of Python's whitespace set used by `str.strip` and `\s`. -/
def pySpace (c : Char) : Bool :=
  c = ' ' ∨ c = '\t' ∨ c = '\n' ∨ c = '\r' ∨ c = '\x0b' ∨ c = '\x0c'

/-- Python `str.strip()` on a character list. -/
def pyStrip (cs : List Char) : List Char :=
  ((cs.dropWhile pySpace).reverse.dropWhile pySpace).reverse

/-- Python `str.strip()` on a string. -/
def pyStripS (s : String) : String :=
  String.mk (pyStrip s.toList)

/-- Python `str.rstrip('.,;')`: drop all trailing `.`/`,`/`;` characters. -/
def rstripPunct (cs : List Char) : List Char :=
  (cs.reverse.dropWhile (fun c => c = '.' ∨ c = ',' ∨ c = ';')).reverse

/-- ASCII fragment of Python `str.lower()`. -/
def pyLower (cs : List Char) : List Char := cs.map Char.toLower

/-- ASCII fragment of Python `str.lower()` on a string. -/
def pyLowerS (s : String) : String := String.mk (pyLower s.toList)

/-- Python `needle in haystack` on character lists (substring containment). -/
def listContains (needle hay : List Char) : Bool :=
  decide (needle <:+: hay)

/-- Python `needle in haystack` for strings (substring containment). -/
def strContains (needle hay : String) : Bool :=
  listContains needle.toList hay.toList

/-- Truthiness of an optional string: `None` and `""` are falsy. -/
def truthyS : Option String → Bool
  | some s => s ≠ ""
  | none => false

/-- Truthiness of an optional list (Python dict/list): `None` and empty are falsy. -/
def truthyL : Option (List α) → Bool
  | some (_ :: _) => true
  | _ => false

/-- Python `a or b` on two optional strings (`a` wins when truthy). -/
def pyOrS (a b : Option String) : Option String :=
  if truthyS a then a else b

/-- Fuelled scan for Python `str.replace(old, new)` with nonempty `old`:
non-overlapping occurrences are replaced left to right.  Each step consumes
at least one character, so fuel `cs.length` suffices. -/
def pyReplaceAux (old new : List Char) : Nat → List Char → List Char
  | 0, cs => cs
  | _ + 1, [] => []
  | fuel + 1, c :: rest =>
    if old.isPrefixOf (c :: rest) then
      new ++ pyReplaceAux old new fuel ((c :: rest).drop old.length)
    else c :: pyReplaceAux old new fuel rest

/-- Python `s.replace(old, new)`.  The source only ever calls it with a
nonempty `old` (`'xs:'`, `'urn:'`, `':'`, `'sep:'`); the empty-`old` case is
modelled as the identity. -/
def pyReplace (s old new : String) : String :=
  if old = "" then s
  else String.mk (pyReplaceAux old.toList new.toList s.toList.length s.toList)

/-- Python `str.startswith(prefix)`. -/
def pyStartsWith (s pre : String) : Bool :=
  pre.toList.isPrefixOf s.toList

/-- ASCII fragment of Python `str.upper()`. -/
def pyUpperS (s : String) : String := String.mk (s.toList.map Char.toUpper)

/-- Concatenation of a list of strings (`''.join`-style). -/
def strJoin (xs : List String) : String :=
  String.mk (xs.foldr (fun s acc => s.toList ++ acc) [])

/-- `sep.join(xs)` / `String.intercalate`, written over character lists so it
reduces definitionally. -/
def strJoinSep (sep : String) (xs : List String) : String :=
  match xs with
  | [] => ""
  | x :: rest => String.mk (x.toList ++ rest.foldr (fun s acc => sep.toList ++ s.toList ++ acc) [])

/-- Python dict assignment on an ordered association list: an existing key is
updated in place, a fresh key is appended at the end. -/
def dinsert [DecidableEq α] (k : α) (v : β) : List (α × β) → List (α × β)
  | [] => [(k, v)]
  | (k', v') :: rest => if k' = k then (k, v) :: rest else (k', v') :: dinsert k v rest

/-- Ordered-dict lookup (first, hence unique, occurrence of the key). -/
def alookup [DecidableEq α] (k : α) : List (α × β) → Option β
  | [] => none
  | (k', v) :: rest => if k' = k then some v else alookup k rest

/-- Python `str.isdigit()` (ASCII fragment): nonempty and all digits. -/
def pyIsdigit (s : String) : Bool :=
  s ≠ "" ∧ s.toList.all Char.isDigit

/-- Numeric value of a (nonempty) ASCII digit list, as produced by `int()` on a
`\d+` regex group. -/
def natOfDigits (cs : List Char) : Nat :=
  cs.foldl (fun n c => n * 10 + (c.toNat - 48)) 0

/-- `int()` on an all-digit string (the `isdigit`-guarded calls in the source). -/
def natOfStr (s : String) : Nat := natOfDigits s.toList

/-- Digit run with optional single underscores between digit groups, as
accepted by Python's `int()` (e.g. `1_000`); must start and end with a digit. -/
def pyIntDigits : List Char → Option Nat
  | [] => none
  | cs =>
    let rec go (acc : Nat) : List Char → Bool → Option Nat
      | [], sawDigit => if sawDigit then some acc else none
      | c :: rest, sawDigit =>
        if c.isDigit then go (acc * 10 + (c.toNat - 48)) rest true
        else if c = '_' then
          match rest with
          | c' :: _ => if sawDigit ∧ c'.isDigit then go acc rest sawDigit else none
          | [] => none
        else none
    go 0 cs false

/-- Python `int(s)` on a string (ASCII fragment): surrounding whitespace is
stripped, an optional sign is allowed, then digits (with `_` separators).
Returns `none` where Python would raise `ValueError`. -/
def pyInt (s : String) : Option Int :=
  match pyStrip s.toList with
  | '-' :: rest => (pyIntDigits rest).map (fun n => -(n : Int))
  | '+' :: rest => (pyIntDigits rest).map (fun n => (n : Int))
  | cs => (pyIntDigits cs).map (fun n => (n : Int))

/-! ## DocAnnotationInterpreter: model of `XSDParser._parse_enum_values`

The two regexes
`^(\d+)\s*([=\-:])\s*(.+?)(?:\n|$)` (single value) and
`^(\d+)\s*-\s*(\d+)\s*:\s*(.+?)(?:\n|$)` (range)
are applied with `re.match` to each `'\n'`-split, stripped line.  On a
stripped, newline-free line every star quantifier is forced (each `\s*`/`\d+`
is followed by a character class disjoint from its own), so the match is the
deterministic left-to-right scan implemented below, and group 3 is the whole
remainder of the line (required nonempty). -/

/-- Python `str.split('\n')`. -/
def splitLines : List Char → List (List Char)
  | [] => [[]]
  | c :: cs =>
    if c = '\n' then [] :: splitLines cs
    else
      match splitLines cs with
      | [] => [[c]]
      | l :: ls => (c :: l) :: ls

/-- Maximal leading ASCII-digit run. -/
def takeDigits (cs : List Char) : List Char × List Char :=
  (cs.takeWhile Char.isDigit, cs.dropWhile Char.isDigit)

/-- Drop leading `\s` characters. -/
def skipWs (cs : List Char) : List Char := cs.dropWhile pySpace

/-- `re.match` of the range pattern `^(\d+)\s*-\s*(\d+)\s*:\s*(.+?)(?:\n|$)`
against a stripped line: returns (group 1 value, group 2 value, group 3). -/
def matchRange (line : List Char) : Option (Nat × Nat × List Char) :=
  match takeDigits line with
  | ([], _) => none
  | (d1, r1) =>
    match skipWs r1 with
    | '-' :: r2 =>
      match takeDigits (skipWs r2) with
      | ([], _) => none
      | (d2, r3) =>
        match skipWs r3 with
        | ':' :: r4 =>
          let rest := skipWs r4
          if rest = [] then none else some (natOfDigits d1, natOfDigits d2, rest)
        | _ => none
    | _ => none

/-- `re.match` of the single-value pattern `^(\d+)\s*([=\-:])\s*(.+?)(?:\n|$)`
against a stripped line: returns (group 1 digits, group 3). -/
def matchSingle (line : List Char) : Option (List Char × List Char) :=
  match takeDigits line with
  | ([], _) => none
  | (d1, r1) =>
    match skipWs r1 with
    | sep :: r2 =>
      if sep = '=' ∨ sep = '-' ∨ sep = ':' then
        let rest := skipWs r2
        if rest = [] then none else some (d1, rest)
      else none
    | [] => none

/-- One attempted match of `\s*\([^)]*default[^)]*\)` at the head of `cs`:
all leading whitespace, an opening paren, a `)`-free body containing
`default` case-insensitively, and the closing paren.  Returns the remainder
after the match. -/
def matchDefaultParen (cs : List Char) : Option (List Char) :=
  let n := (cs.takeWhile pySpace).length
  match cs.drop n with
  | '(' :: afterParen =>
    let body := afterParen.takeWhile (fun c => c ≠ ')')
    match afterParen.drop body.length with
    | ')' :: rest =>
      if listContains ("default".toList) (pyLower body) then some rest else none
    | _ => none
  | _ => none

/-- Fuelled scan for `re.sub(r'\s*\([^)]*default[^)]*\)', '', s, flags=I)`:
non-overlapping leftmost matches are deleted.  Every successful match
consumes at least two characters, so fuel `cs.length` suffices and the
fuel-exhausted branch is unreachable. -/
def subDefaultAux : Nat → List Char → List Char
  | 0, cs => cs
  | _ + 1, [] => []
  | fuel + 1, c :: rest =>
    match matchDefaultParen (c :: rest) with
    | some rem => subDefaultAux fuel rem
    | none => c :: subDefaultAux fuel rest

/-- `re.sub(r'\s*\([^)]*default[^)]*\)', '', s, flags=re.IGNORECASE)`. -/
def subDefault (cs : List Char) : List Char :=
  subDefaultAux cs.length cs

/-- The description clean-up applied to regex group 3 in `_parse_enum_values`:
`.strip()`, `.rstrip('.,;')`, the default-parenthetical removal, `.strip()`. -/
def cleanDesc (cs : List Char) : String :=
  String.mk (pyStrip (subDefault (rstripPunct (pyStrip cs))))

/-- One parsed `{start, end, description}` range record. -/
structure RangeInfo where
  start : Nat
  stop : Nat
  description : String
  deriving Repr, DecidableEq

/-- How `_parse_enum_values` treats one raw line: a range record, a single
enum record, or nothing. -/
inductive LineClass where
  | range (r : RangeInfo)
  | single (key : String) (value : String)
  | skip
  deriving Repr, DecidableEq

/-- Classification of one raw line of documentation text, mirroring the loop
body of `_parse_enum_values`: strip, try the range pattern, skip digit-free
"reserved" prose, then try the single-value pattern. -/
def classifyLine (raw : List Char) : LineClass :=
  let line := pyStrip raw
  if line = [] then .skip
  else
    match matchRange line with
    | some (a, b, rest) => .range ⟨a, b, cleanDesc rest⟩
    | none =>
      if listContains ("reserved".toList) (pyLower line) ∧ ¬ line.any Char.isDigit then .skip
      else
        match matchSingle line with
        | some (key, rest) => .single (String.mk key) (cleanDesc rest)
        | none => .skip

/-- The two accumulators of `_parse_enum_values`. -/
structure EnumState where
  values : List (String × String)
  ranges : List RangeInfo
  deriving Repr, DecidableEq

/-- Processing of one line: ranges are appended, single records update the
ordered dict of enum values. -/
def stepLine (st : EnumState) (raw : List Char) : EnumState :=
  match classifyLine raw with
  | .range r => ⟨st.values, st.ranges ++ [r]⟩
  | .single k v => ⟨dinsert k v st.values, st.ranges⟩
  | .skip => st

/-- A nonempty list, or `None` (the `x if x else None` returns). -/
def optNE : List α → Option (List α)
  | [] => none
  | l => some l

/-- `XSDParser._parse_enum_values(doc_text)`: the pair
`(enum_values, range_info)`, each `None` when empty. -/
def parseEnumValues (docText : String) : Option (List (String × String)) × Option (List RangeInfo) :=
  if docText = "" then (none, none)
  else
    let st := (splitLines docText.toList).foldl stepLine ⟨[], []⟩
    (optNE st.values, optNE st.ranges)

/-! ## XML element-tree model

`xml.etree.ElementTree` elements: a namespace-qualified tag, attributes,
`.text`, `.tail`, and children.  `find('.//t')`/`findall('.//t')` search the
proper descendants in document (pre-)order. -/

/-- An XML element as exposed by `xml.etree.ElementTree`. -/
inductive XElem where
  | mk (tag : String) (attrs : List (String × String)) (text tail : Option String)
       (children : List XElem) : XElem
  deriving Repr

def XElem.tag : XElem → String
  | .mk t _ _ _ _ => t

def XElem.attrs : XElem → List (String × String)
  | .mk _ a _ _ _ => a

def XElem.text : XElem → Option String
  | .mk _ _ t _ _ => t

def XElem.tail : XElem → Option String
  | .mk _ _ _ t _ => t

def XElem.children : XElem → List XElem
  | .mk _ _ _ _ c => c

/-- `elem.get(name)`: attribute lookup (absent → `None`). -/
def XElem.attr (e : XElem) (name : String) : Option String :=
  alookup name e.attrs

/-- `elem.get(name, default)`. -/
def XElem.attrD (e : XElem) (name dflt : String) : String :=
  (e.attr name).getD dflt

mutual

/-- Proper descendants of an element in document order (the node set
traversed by the `.//` path). -/
def XElem.descendants : XElem → List XElem
  | .mk _ _ _ _ cs => descendantsL cs

def descendantsL : List XElem → List XElem
  | [] => []
  | c :: cs => c :: (XElem.descendants c ++ descendantsL cs)

end

/-- `elem.findall('.//{ns}tag')`. -/
def findAllDesc (e : XElem) (tag : String) : List XElem :=
  e.descendants.filter (fun d => d.tag = tag)

/-- `elem.find('.//{ns}tag')`: first matching descendant. -/
def findDesc (e : XElem) (tag : String) : Option XElem :=
  (findAllDesc e tag).head?

/-- Qualified tag in the XML-Schema namespace, as the source writes it:
`'{http://www.w3.org/2001/XMLSchema}' + local`. -/
def xsT (local_ : String) : String :=
  "\x7bhttp://www.w3.org/2001/XMLSchema\x7d" ++ local_

/-! ## SchemaModel: `XSDParser` -/

/-- One element reference inside a type (the per-element dict built by
`_extract_type_info`; keys absent in the dict are `none`). -/
structure ElemInfo where
  name : Option String
  type : Option String
  minOccurs : String
  maxOccurs : String
  documentation : Option String := none
  enum_values : Option (List (String × String)) := none
  enum_ranges : Option (List RangeInfo) := none
  deriving Repr

/-- One attribute reference inside a type. -/
structure AttrInfo where
  name : Option String
  type : Option String
  use : String
  default : Option String
  documentation : Option String := none
  deriving Repr

/-- The per-type dict built by `_extract_type_info`. -/
structure TypeInfo where
  elements : List ElemInfo := []
  attributes : List AttrInfo := []
  base : Option String := none
  restriction : Option String := none
  documentation : Option String := none
  enum_values : Option (List (String × String)) := none
  enum_ranges : Option (List RangeInfo) := none
  deriving Repr

/-- `XSDParser._extract_documentation(elem)`: first `annotation` descendant,
its first `documentation` descendant, `.text` plus `.tail`, and the mined
enumeration data (the tuple is returned only when one component is truthy). -/
def docTextOf (docEl : XElem) : String :=
  let t0 := if truthyS docEl.text then docEl.text.getD "" else ""
  if truthyS docEl.tail then t0 ++ (docEl.tail.getD "") else t0

/-- The full `_extract_documentation(elem)` return value. -/
def extractDocumentation (e : XElem) :
    Option String × Option (Option (List (String × String)) × Option (List RangeInfo)) :=
  match findDesc e (xsT "annotation") with
  | none => (none, none)
  | some ann =>
    match findDesc ann (xsT "documentation") with
    | none => (none, none)
    | some docEl =>
      let t := docTextOf docEl
      let ev := (parseEnumValues t).1
      let ri := (parseEnumValues t).2
      let docOut := if pyStripS t ≠ "" then some (pyStripS t) else none
      if ev.isSome ∨ ri.isSome then (docOut, some (ev, ri)) else (docOut, none)

/-- The element-dict construction shared by the extension and no-extension
branches of `_extract_type_info`. -/
def mkElemInfo (el : XElem) : ElemInfo :=
  let (d, en) := extractDocumentation el
  { name := el.attr "name"
    type := el.attr "type"
    minOccurs := el.attrD "minOccurs" "1"
    maxOccurs := el.attrD "maxOccurs" "1"
    documentation := if truthyS d then d else none
    enum_values := match en with | some (ev, _) => ev | none => none
    enum_ranges := match en with | some (_, ri) => ri | none => none }

/-- The attribute-dict construction in `_extract_type_info`. -/
def mkAttrInfo (at_ : XElem) : AttrInfo :=
  let (d, _) := extractDocumentation at_
  { name := at_.attr "name"
    type := at_.attr "type"
    use := at_.attrD "use" "optional"
    default := at_.attr "default"
    documentation := if truthyS d then d else none }

/-- One `<enumeration>` facet step of the restriction loop in
`_extract_type_info`: the dict is initialised (to empty) before the value
check, a facet with a falsy `value` attribute contributes no entry, and the
entry's text is the facet's own documentation or, failing that, the value. -/
def facetStep (ev : Option (List (String × String))) (facet : XElem) :
    Option (List (String × String)) :=
  let ev1 := if ev.isSome then ev else some []
  match facet.attr "value" with
  | some v =>
    if v ≠ "" then
      let d := (extractDocumentation facet).1
      some (dinsert v (if truthyS d then d.getD "" else v) (ev1.getD []))
    else ev1
  | none => ev1

/-- Whether an `<enumeration>` facet contributes the entry keyed `v`: its
`value` attribute is present, truthy, and equal to `v`. -/
def facetHits (f : XElem) (v : String) : Bool :=
  f.attr "value" = some v ∧ v ≠ ""

/-- The entry text contributed by a facet keyed `v`: the facet's own
documentation when truthy, else the value itself. -/
def facetText (f : XElem) (v : String) : String :=
  let d := (extractDocumentation f).1
  if truthyS d then d.getD "" else v

/-- The documentation-mined enum values of a type element (the state of
`info['enum_values']` before the restriction block runs). -/
def docEnumValues (te : XElem) : Option (List (String × String)) :=
  match (extractDocumentation te).2 with
  | some (ev, _) => ev
  | none => none

/-- The documentation-mined enum ranges of a type element. -/
def docEnumRanges (te : XElem) : Option (List RangeInfo) :=
  match (extractDocumentation te).2 with
  | some (_, ri) => ri
  | none => none

/-- `XSDParser._extract_type_info(type_elem)`. -/
def extractTypeInfo (te : XElem) : TypeInfo :=
  let doc := (extractDocumentation te).1
  let ev0 := docEnumValues te
  let er0 := docEnumRanges te
  let ext := findDesc te (xsT "extension")
  let base := match ext with | some e => e.attr "base" | none => none
  let extElems := match ext with
    | some e => (findAllDesc e (xsT "element")).map mkElemInfo
    | none => []
  let (restriction, ev1) := match findDesc te (xsT "restriction") with
    | some r => (r.attr "base", (findAllDesc r (xsT "enumeration")).foldl facetStep ev0)
    | none => (none, ev0)
  let attrs := (findAllDesc te (xsT "attribute")).map mkAttrInfo
  let elems := match ext with
    | some _ => extElems
    | none => (findAllDesc te (xsT "element")).map mkElemInfo
  { elements := elems
    attributes := attrs
    base := base
    restriction := restriction
    documentation := doc
    enum_values := ev1
    enum_ranges := er0 }

/-- A top-level `<element>` entry of the parser's `elements` dict. -/
structure RootElem where
  type : Option String
  minOccurs : String
  maxOccurs : String
  deriving Repr

/-- The parsed schema model (the parser's state after `parse`). -/
structure SchemaModel where
  namespace_ : Option String
  base_uri : String
  types : List (String × TypeInfo)
  elements : List (String × RootElem)
  deriving Repr

/-- Input document for `parse`: either malformed bytes (on which `ET.parse`
raises `ParseError`) or a well-formed tree with its root element. -/
inductive XMLInput where
  | malformed
  | wellFormed (root : XElem)

/-- `XSDParser(base_uri).parse(xsd_file)`.  `ET.parse` failure is the only
error; everything afterwards is total (all attribute reads have defaults). -/
def xsdParse (baseUriArg : Option String) (input : XMLInput) : Except String SchemaModel :=
  match input with
  | .malformed => .error "ParseError"
  | .wellFormed root =>
    let base0 := baseUriArg.getD "https://schemas.ieee.org/2030.5/"
    let ns := root.attr "targetNamespace"
    let base1 :=
      if truthyS ns ∧ ¬ pyStartsWith base0 "http" then
        pyReplace (pyReplace (ns.getD "") "urn:" "https://") ":" "/"
      else base0
    let types1 := (findAllDesc root (xsT "complexType")).foldl
      (fun acc ct => if truthyS (ct.attr "name") then
          dinsert ((ct.attr "name").getD "") (extractTypeInfo ct) acc
        else acc) []
    let types2 := (findAllDesc root (xsT "simpleType")).foldl
      (fun acc st => if truthyS (st.attr "name") then
          dinsert ((st.attr "name").getD "") (extractTypeInfo st) acc
        else acc) types1
    let elems := (findAllDesc root (xsT "element")).foldl
      (fun acc el => if truthyS (el.attr "name") then
          dinsert ((el.attr "name").getD "")
            (RootElem.mk (el.attr "type") (el.attrD "minOccurs" "1") (el.attrD "maxOccurs" "1")) acc
        else acc) []
    .ok { namespace_ := ns, base_uri := base1, types := types2, elements := elems }

/-! ## JSON document model

Generated documents are trees of JSON values; objects are ordered association
lists mirroring Python dict insertion order. -/

inductive JValue where
  | null
  | str (s : String)
  | int (n : Int)
  | bool (b : Bool)
  | arr (xs : List JValue)
  | obj (fields : List (String × JValue))
  deriving Repr

/-- Fields of a JSON object (a Python dict of string keys). -/
abbrev JObj := List (String × JValue)

/-- Object-field lookup (keys are unique in every object the code builds). -/
def olookup (k : String) : JObj → Option JValue
  | [] => none
  | (k', v) :: rest => if k' = k then some v else olookup k rest

/-! ## RenderEngine: SHACL property shapes (`_create_property_shape`)

Each renderer stage is written as the concatenation of the optional field
groups the Python code inserts, in insertion order; this is dict-faithful
because within one run every inserted key is distinct. -/

/-- The fixed integer-family name set used for numeric-ness. -/
def numericTypeNames : List String :=
  ["Int8", "Int16", "Int32", "Int48", "Int64",
   "UInt8", "UInt16", "UInt32", "UInt40", "UInt48", "UInt64",
   "int", "long", "unsignedByte", "unsignedShort",
   "unsignedInt", "unsignedLong", "byte", "short"]

/-- `prop_type.replace('xs:', '') if prop_type else ''`. -/
def cleanName (pt : Option String) : String :=
  pyReplace (pt.getD "") "xs:" ""

/-- Registry lookup (`name in self.types` / `self.types[name]`). -/
def lookupType (types : List (String × TypeInfo)) (n : String) : Option TypeInfo :=
  alookup n types

/-- The numeric-ness rule: the cleaned name is in the integer-family set, or
it resolves in the registry and its `base or restriction` name is. -/
def isNumericProp (types : List (String × TypeInfo)) (clean : String) : Bool :=
  if clean ∈ numericTypeNames then true
  else
    match lookupType types clean with
    | some info =>
      let bt := pyOrS info.base info.restriction
      if truthyS bt then pyReplace (bt.getD "") "xs:" "" ∈ numericTypeNames else false
    | none => false

/-- The base name used for width-bound constraints: the registry's
`base or restriction` (cleaned) when the type resolves and has a truthy base,
otherwise the cleaned property type itself. -/
def btcOf (types : List (String × TypeInfo)) (clean : String) : String :=
  match lookupType types clean with
  | some info =>
    let bt := pyOrS info.base info.restriction
    if truthyS bt then pyReplace (bt.getD "") "xs:" "" else clean
  | none => clean

/-- The fixed lexical XSD-primitive → `xsd:*` IRI table of the SHACL renderer. -/
def xsdTypeMap : String → Option String
  | "string" => some "xsd:string"
  | "int" => some "xsd:integer"
  | "long" => some "xsd:long"
  | "boolean" => some "xsd:boolean"
  | "unsignedByte" => some "xsd:unsignedByte"
  | "unsignedShort" => some "xsd:unsignedShort"
  | "unsignedInt" => some "xsd:unsignedInt"
  | "unsignedLong" => some "xsd:unsignedLong"
  | "byte" => some "xsd:byte"
  | "short" => some "xsd:short"
  | "anyURI" => some "xsd:anyURI"
  | "hexBinary" => some "xsd:hexBinary"
  | _ => none

/-- The value placed in `sh:in` for one enum key: `int(key)` when numeric
(falling back to the raw key on `ValueError`), else the raw key. -/
def shInValue (isNum : Bool) (k : String) : JValue :=
  if isNum then
    match pyInt k with
    | some n => .int n
    | none => .str k
  else .str k

/-- The `sh:minInclusive`/`sh:maxInclusive` group for the three unsigned
width families. -/
def shaclBoundsSeg (b : String) : JObj :=
  if strContains "UInt8" b ∨ b = "unsignedByte" then
    [("sh:minInclusive", .int 0), ("sh:maxInclusive", .int 255)]
  else if strContains "UInt16" b ∨ b = "unsignedShort" then
    [("sh:minInclusive", .int 0), ("sh:maxInclusive", .int 65535)]
  else if strContains "UInt32" b ∨ b = "unsignedInt" then
    [("sh:minInclusive", .int 0), ("sh:maxInclusive", .int 4294967295)]
  else []

/-- The `sh:datatype`/`sh:node` group of a property shape. -/
def shaclDatatypeSeg (types : List (String × TypeInfo)) (pt : Option String) : JObj :=
  if truthyS pt then
    let c := cleanName pt
    match xsdTypeMap c with
    | some v => [("sh:datatype", .str v)]
    | none =>
      match lookupType types c with
      | some info =>
        if !info.elements.isEmpty || !info.attributes.isEmpty then
          [("sh:node", .obj [("@id", .str (c ++ "Shape"))])]
        else
          let bt := pyOrS info.base info.restriction
          if truthyS bt then
            let bc := pyReplace (bt.getD "") "xs:" ""
            match xsdTypeMap bc with
            | some v => [("sh:datatype", .str v)]
            | none =>
              if strContains "Int" bc ∨ strContains "UInt" bc then
                [("sh:datatype", .str "xsd:integer")]
              else if strContains "String" bc then [("sh:datatype", .str "xsd:string")]
              else [("sh:datatype", .str "xsd:string")]
          else []
      | none =>
        if strContains "Int" c ∨ strContains "UInt" c then
          [("sh:datatype", .str "xsd:integer")]
        else if strContains "String" c then [("sh:datatype", .str "xsd:string")]
        else []
  else []

/-- `XSDGenerator._create_property_shape`. -/
def createPropertyShape (types : List (String × TypeInfo)) (prop_name : String)
    (prop_type : Option String) (min_occurs max_occurs : String)
    (documentation default_value : Option String)
    (enum_values : Option (List (String × String)))
    (enum_ranges : Option (List RangeInfo)) : JObj :=
  let clean := cleanName prop_type
  let is_numeric := isNumericProp types clean
  let shInSeg :=
    if truthyL enum_values ∧ ¬ truthyL enum_ranges then
      let enum_list := (enum_values.getD []).map (fun kv => shInValue is_numeric kv.1)
      if !enum_list.isEmpty then [("sh:in", .arr enum_list)] else []
    else []
  let min_val : Nat := if pyIsdigit min_occurs then natOfStr min_occurs else 0
  let minSeg := if min_val > 0 then [("sh:minCount", .int min_val)] else []
  let maxSeg :=
    if max_occurs ≠ "unbounded" then
      let max_val : Nat := if pyIsdigit max_occurs then natOfStr max_occurs else 1
      if max_val > 0 then [("sh:maxCount", .int max_val)] else []
    else []
  let boundsSeg := if is_numeric then shaclBoundsSeg (btcOf types clean) else []
  let dtSeg := shaclDatatypeSeg types prop_type
  let docSeg := if truthyS documentation then [("rdfs:comment", .str (documentation.getD ""))] else []
  let defSeg := if truthyS default_value then [("sh:defaultValue", .str (default_value.getD ""))] else []
  [("sh:path", .obj [("@id", .str prop_name)])]
    ++ shInSeg ++ minSeg ++ maxSeg ++ boundsSeg ++ dtSeg ++ docSeg ++ defSeg

/-! ## RenderEngine: JSON-Schema properties (`_create_json_schema_property`) -/

/-- The XSD-primitive → JSON-type table of the JSON-Schema renderer. -/
def xsdToJsonType : String → Option String
  | "string" => some "string"
  | "int" => some "integer"
  | "long" => some "integer"
  | "boolean" => some "boolean"
  | "unsignedByte" => some "integer"
  | "unsignedShort" => some "integer"
  | "unsignedInt" => some "integer"
  | "unsignedLong" => some "integer"
  | "byte" => some "integer"
  | "short" => some "integer"
  | "anyURI" => some "string"
  | "hexBinary" => some "string"
  | _ => none

/-- `XSDGenerator._get_integer_format`. -/
def getIntegerFormat (type_name : String) : Option String :=
  let tl := pyLowerS type_name
  if tl = "uint8" ∨ type_name = "unsignedByte" then some "uint8"
  else if tl = "uint16" ∨ type_name = "unsignedShort" then some "uint16"
  else if tl = "uint32" ∨ type_name = "unsignedInt" then some "uint32"
  else if tl = "uint64" ∨ type_name = "unsignedLong" then some "uint64"
  else if tl = "int8" ∨ type_name = "byte" then some "int8"
  else if tl = "int16" ∨ type_name = "short" then some "int16"
  else if tl = "int32" ∨ type_name = "int" then some "int32"
  else if tl = "int64" ∨ type_name = "long" then some "int64"
  else none

/-- Outcome of the type-resolution phase of `_create_json_schema_property`:
either the early `$ref` return (complex registry type with content), or the
computed `format` and `json_type`. -/
inductive TypeStage where
  | ref (o : JObj)
  | plain (fmt : Option String) (jt : Option String)

/-- The type-resolution phase of `_create_json_schema_property` (everything
up to and including the `if json_type:` assignment). -/
def typeStage (types : List (String × TypeInfo)) (clean : String)
    (documentation default_value : Option String) : TypeStage :=
  match xsdToJsonType clean with
  | some jt => .plain none (some jt)
  | none =>
    match lookupType types clean with
    | some info =>
      if !info.elements.isEmpty || !info.attributes.isEmpty then
        .ref ([("$ref", .str ("#/definitions/" ++ clean))]
          ++ (if truthyS documentation then [("description", .str (documentation.getD ""))] else [])
          ++ (if truthyS default_value then [("default", .str (default_value.getD ""))] else []))
      else
        let bt := pyOrS info.base info.restriction
        if truthyS bt then
          let bc := pyReplace (bt.getD "") "xs:" ""
          match xsdToJsonType bc with
          | some jt =>
            .plain (if bc = "hexBinary" ∨ strContains "HexBinary" bc then some "hexBinary" else none)
              (some jt)
          | none =>
            if strContains "Int" bc ∨ strContains "UInt" bc then
              .plain (getIntegerFormat bc) (some "integer")
            else if strContains "String" bc then .plain none (some "string")
            else if strContains "HexBinary" bc then .plain (some "hexBinary") (some "string")
            else .plain none none
        else .plain none none
    | none =>
      if strContains "Int" clean ∨ strContains "UInt" clean then
        .plain (getIntegerFormat clean) (some "integer")
      else if strContains "String" clean then .plain none (some "string")
      else if strContains "HexBinary" clean then .plain (some "hexBinary") (some "string")
      else .plain none none

/-- The bitmask-detection flag: `format == "hexBinary"`, truthy enum values,
and a "bit"/"bitmap" mention in the property or owning-type documentation. -/
def isBitmaskFlag (fmt : Option String) (ev : Option (List (String × String)))
    (documentation type_documentation : Option String) : Bool :=
  fmt = some "hexBinary" && truthyL ev &&
    (let dl := pyLowerS (documentation.getD "")
     let tl := pyLowerS (type_documentation.getD "")
     strContains "bit" dl || strContains "bitmap" dl ||
       strContains "bit position" tl || strContains "bitmap" tl)

/-- A bit-position key: `int(key)` when it parses, else the raw string. -/
inductive BitKey where
  | i (n : Int)
  | raw (s : String)
  deriving Repr, DecidableEq

/-- Rendered form of a bit-position key (Python `f"{key}"`/JSON key). -/
def BitKey.render : BitKey → String
  | .i n => toString n
  | .raw s => s

/-- The `bit_positions` dict built in the bitmask branch. -/
def bitPositions (vals : List (String × String)) : List (BitKey × String) :=
  vals.foldl
    (fun acc kv =>
      dinsert (match pyInt kv.1 with | some n => BitKey.i n | none => BitKey.raw kv.1) kv.2 acc)
    []

/-- The generated bit-position description block.  `sorted(keys, key=...)`
assigns the constant 999 to every key that occurs (int keys are not strings;
remaining string keys failed `int()` and hence are not all-digit), so the
stable sort preserves insertion order and is omitted here. -/
def bitDescText (bps : List (BitKey × String)) : String :=
  "\n\nBit positions (multiple bits can be set, value is hex-encoded):\n" ++
    strJoin (bps.map (fun kv => "  - Bit " ++ kv.1.render ++ ": " ++ kv.2 ++ "\n")) ++
    "\nExample: To set bits 0 and 1, use hex value \"00000003\" (0x00000001 | 0x00000002)"

/-- The declared hex-binary bit width of a property type: the registry type's
`base or restriction` name matched against the `HexBinary*` substrings in
the source's order (`32`, `16`, `8`, `64`, `160`, `48`). -/
def hexBinarySize (types : List (String × TypeInfo)) (clean : String) : Option Nat :=
  match lookupType types clean with
  | some info =>
    let bt := pyOrS info.base info.restriction
    if truthyS bt then
      let bc := pyReplace (bt.getD "") "xs:" ""
      if strContains "HexBinary32" bc then some 32
      else if strContains "HexBinary16" bc then some 16
      else if strContains "HexBinary8" bc then some 8
      else if strContains "HexBinary64" bc then some 64
      else if strContains "HexBinary160" bc then some 160
      else if strContains "HexBinary48" bc then some 48
      else none
    else none
  | none => none

/-- The field group added by the bitmask branch: generated description,
`x-bit-positions`, and (when the hex-binary width is known) the `pattern` of
1 to width/4 hex characters plus `x-examples`. -/
def bitmaskSeg (types : List (String × TypeInfo)) (clean : String)
    (documentation : Option String) (vals : List (String × String)) : JObj :=
  let bps := bitPositions vals
  let text := bitDescText bps
  [("description",
      .str (if truthyS documentation then (documentation.getD "") ++ text else pyStripS text))]
  ++ [("x-bit-positions", .obj (bps.map (fun kv => (kv.1.render, JValue.str kv.2))))]
  ++ (match hexBinarySize types clean with
      | some sz =>
        let max_chars := sz / 4
        [("pattern", .str ("^[0-9A-Fa-f]\x7b1," ++ toString max_chars ++ "\x7d$")),
         ("x-examples", .arr [.str "00000001", .str "00000003",
            .str (if sz ≥ 32 then "FFFFFFFF" else "FF")])]
      | none => [])

/-- The numeric-ness rule of the regular-enum branch. -/
def enumIsNumeric (types : List (String × TypeInfo)) (clean : String)
    (jt : Option String) : Bool :=
  if jt = some "integer" then true
  else
    match lookupType types clean with
    | some info =>
      let bt := pyOrS info.base info.restriction
      if truthyS bt then
        let bc := pyReplace (bt.getD "") "xs:" ""
        bc ∈ ["unsignedByte", "unsignedShort", "unsignedInt", "unsignedLong",
              "byte", "short", "int", "long"]
          || strContains "Int" bc || strContains "UInt" bc
      else strContains "Int" clean || strContains "UInt" clean
    | none => false

/-- One enum value as placed in the `enum` array plus its `str(...)` key used
in `enum_descriptions`. -/
def enumValuePair (isNum : Bool) (k : String) : JValue × String :=
  if isNum then
    match pyInt k with
    | some n => (.int n, toString n)
    | none => (.str k, k)
  else (.str k, k)

/-- The `enum_list` and `enum_descriptions` accumulators of the regular-enum
branch (descriptions only for truthy texts, keyed by `str(enum_value)`). -/
def enumListAndDescs (isNum : Bool) (vals : List (String × String)) :
    List JValue × List (String × String) :=
  vals.foldl
    (fun acc kv =>
      let (v, sk) := enumValuePair isNum kv.1
      (acc.1 ++ [v], if kv.2 ≠ "" then dinsert sk kv.2 acc.2 else acc.2))
    ([], [])

/-- The `"start - end"` key of one range record. -/
def rangeKey (r : RangeInfo) : String :=
  toString r.start ++ " - " ++ toString r.stop

/-- The `x-enum-descriptions` dict: the per-value descriptions extended with
one entry per range. -/
def xEnumDescEntries (eds : List (String × String)) (er : Option (List RangeInfo)) :
    List (String × String) :=
  (er.getD []).foldl (fun acc r => dinsert (rangeKey r) r.description acc) eds

/-- The human-readable description block appended for enum values and ranges. -/
def enumDescText (eds : List (String × String)) (er : Option (List RangeInfo)) : String :=
  let specific := eds.filter (fun kv => ¬ strContains " - " kv.1)
  let lines :=
    (if !eds.isEmpty then
       (if !specific.isEmpty then
          ["Enum values:"] ++ specific.map (fun kv => "  - " ++ kv.1 ++ ": " ++ kv.2)
        else [])
     else [])
    ++ (if truthyL er then
          (if !eds.isEmpty then [""] else [])
          ++ ["Value ranges:"]
          ++ (er.getD []).map
              (fun r => "  - " ++ toString r.start ++ " - " ++ toString r.stop ++ ": " ++
                r.description)
        else [])
  if !lines.isEmpty then "\n" ++ strJoinSep "\n" lines else ""

/-- The field group added by the regular (non-bitmask) enum branch: the native
`enum` array only when no ranges coexist, then `x-enum-descriptions` and the
appended description whenever a description or a range exists. -/
def regularEnumSeg (isNum : Bool) (vals : List (String × String))
    (er : Option (List RangeInfo)) (documentation : Option String) : JObj :=
  let (enum_list, eds) := enumListAndDescs isNum vals
  (if !enum_list.isEmpty && ¬ truthyL er then [("enum", .arr enum_list)] else [])
  ++ (if !eds.isEmpty || truthyL er then
        let text := enumDescText eds er
        [("x-enum-descriptions",
            .obj ((xEnumDescEntries eds er).map (fun kv => (kv.1, JValue.str kv.2))))]
        ++ [("description",
              .str (if truthyS documentation then (documentation.getD "") ++ text
                else pyStripS text))]
      else [])

/-- The `minimum`/`maximum` group for the three unsigned width families. -/
def jsonBoundsSeg (b : String) : JObj :=
  if strContains "UInt8" b ∨ b = "unsignedByte" then
    [("minimum", .int 0), ("maximum", .int 255)]
  else if strContains "UInt16" b ∨ b = "unsignedShort" then
    [("minimum", .int 0), ("maximum", .int 65535)]
  else if strContains "UInt32" b ∨ b = "unsignedInt" then
    [("minimum", .int 0), ("maximum", .int 4294967295)]
  else []

/-- The array-wrapping condition: `maxOccurs == 'unbounded'` or a literal
integer greater than 1. -/
def wrapCond (max_occurs : String) : Bool :=
  max_occurs = "unbounded" || (pyIsdigit max_occurs && natOfStr max_occurs > 1)

/-- The pre-wrap property schema of `_create_json_schema_property`: the
`format`/`type` fields followed by the enum or bitmask group and the numeric
bounds, in the source's insertion order. -/
def jspCore (types : List (String × TypeInfo)) (clean : String)
    (documentation : Option String) (enum_values : Option (List (String × String)))
    (type_documentation : Option String) (enum_ranges : Option (List RangeInfo))
    (fmt jt : Option String) : JObj :=
  (match fmt with | some f => [("format", JValue.str f)] | none => [])
  ++ (match jt with | some t => [("type", JValue.str t)] | none => [])
  ++ (if truthyL enum_values then
        if isBitmaskFlag fmt enum_values documentation type_documentation then
          bitmaskSeg types clean documentation (enum_values.getD [])
        else
          regularEnumSeg (enumIsNumeric types clean jt) (enum_values.getD [])
            enum_ranges documentation
      else [])
  ++ (if jt = some "integer" then jsonBoundsSeg (btcOf types clean) else [])

/-- The schema after the array-wrapping step: when `maxOccurs` is
`'unbounded'` or a literal integer above 1, the core schema moves into
`items` with `minItems`/`maxItems`. -/
def jspWrapped (types : List (String × TypeInfo)) (clean : String)
    (min_occurs max_occurs : String) (documentation : Option String)
    (enum_values : Option (List (String × String))) (type_documentation : Option String)
    (enum_ranges : Option (List RangeInfo)) (fmt jt : Option String) : JObj :=
  if wrapCond max_occurs then
    [("type", JValue.str "array"),
     ("items", JValue.obj (jspCore types clean documentation enum_values
        type_documentation enum_ranges fmt jt))]
    ++ (if pyIsdigit min_occurs ∧ natOfStr min_occurs > 0 then
          [("minItems", JValue.int (natOfStr min_occurs))] else [])
    ++ (if pyIsdigit max_occurs then [("maxItems", JValue.int (natOfStr max_occurs))]
        else [])
  else jspCore types clean documentation enum_values type_documentation enum_ranges fmt jt

/-- The schema after the guarded description and the default were appended. -/
def jspFinal (types : List (String × TypeInfo)) (clean : String)
    (min_occurs max_occurs : String) (documentation default_value : Option String)
    (enum_values : Option (List (String × String))) (type_documentation : Option String)
    (enum_ranges : Option (List RangeInfo)) (fmt jt : Option String) : JObj :=
  (jspWrapped types clean min_occurs max_occurs documentation enum_values
      type_documentation enum_ranges fmt jt
    ++ (if truthyS documentation ∧
          (olookup "description" (jspWrapped types clean min_occurs max_occurs documentation
            enum_values type_documentation enum_ranges fmt jt)).isNone then
          [("description", JValue.str (documentation.getD ""))] else []))
  ++ (if truthyS default_value then [("default", JValue.str (default_value.getD ""))] else [])

/-- The tail of `_create_json_schema_property` after type resolution: the
assembled schema, or `None` when it stayed empty. -/
def jspAssemble (types : List (String × TypeInfo)) (clean : String)
    (min_occurs max_occurs : String) (documentation default_value : Option String)
    (enum_values : Option (List (String × String))) (type_documentation : Option String)
    (enum_ranges : Option (List RangeInfo)) (fmt jt : Option String) : Option JObj :=
  if (jspFinal types clean min_occurs max_occurs documentation default_value enum_values
      type_documentation enum_ranges fmt jt).isEmpty then none
  else some (jspFinal types clean min_occurs max_occurs documentation default_value enum_values
      type_documentation enum_ranges fmt jt)

/-- `XSDGenerator._create_json_schema_property`.  The `include_enums`
parameter is accepted but (as in the source) unused; gating happens at the
call sites. -/
def createJsonSchemaProperty (types : List (String × TypeInfo))
    (prop_type : Option String) (min_occurs max_occurs : String)
    (documentation : Option String) (include_enums : Bool)
    (default_value : Option String) (enum_values : Option (List (String × String)))
    (type_documentation : Option String) (enum_ranges : Option (List RangeInfo)) :
    Option JObj :=
  if ¬ truthyS prop_type then none
  else
    match typeStage types (cleanName prop_type) documentation default_value with
    | .ref o => some o
    | .plain fmt jt =>
      jspAssemble types (cleanName prop_type) min_occurs max_occurs documentation
        default_value enum_values type_documentation enum_ranges fmt jt

/-! ## RenderEngine: `generate_json_schema` -/

/-- The enum resolution for one element property in `generate_json_schema`:
each of the element's own `enum_values`/`enum_ranges` that is `None` is
filled from the registry entry of the element's (cleaned) type, when
`include_enums` is set and the type resolves. -/
def elemEnumResolution (types : List (String × TypeInfo)) (include_enums : Bool)
    (el : ElemInfo) : Option (List (String × String)) × Option (List RangeInfo) :=
  if el.enum_values.isNone ∨ el.enum_ranges.isNone then
    let et := cleanName el.type
    if include_enums then
      match lookupType types et with
      | some info =>
        ((if el.enum_values.isNone then info.enum_values else el.enum_values),
         (if el.enum_ranges.isNone then info.enum_ranges else el.enum_ranges))
      | none => (el.enum_values, el.enum_ranges)
    else (el.enum_values, el.enum_ranges)
  else (el.enum_values, el.enum_ranges)

/-- The owning-type documentation fetched for bitmask detection. -/
def typeDocOf (types : List (String × TypeInfo)) (clean : String) : Option String :=
  (lookupType types clean).bind (fun info => info.documentation)

/-- The property schema produced for one element of a type (the element-loop
body of `generate_json_schema`).  Elements whose `type` attribute is absent
make the source raise (`None.replace`), so theorems about this definition
carry a `type`-present hypothesis. -/
def elemPropSchema (types : List (String × TypeInfo)) (include_docs include_enums : Bool)
    (el : ElemInfo) : Option JObj :=
  let (ev, er) := elemEnumResolution types include_enums el
  let et := cleanName el.type
  createJsonSchemaProperty types el.type el.minOccurs el.maxOccurs
    (if include_docs then el.documentation else none) include_enums none ev
    (typeDocOf types et) er

/-- The property schema produced for one attribute of a type (the
attribute-loop body of `generate_json_schema`). -/
def attrPropSchema (types : List (String × TypeInfo)) (include_docs include_enums : Bool)
    (at_ : AttrInfo) : Option JObj :=
  let min_occurs := if at_.use = "required" then "1" else "0"
  let atype := cleanName at_.type
  let (ev, er) :=
    if include_enums then
      match lookupType types atype with
      | some info => (info.enum_values, info.enum_ranges)
      | none => (none, none)
    else (none, none)
  createJsonSchemaProperty types at_.type min_occurs "1"
    (if include_docs then at_.documentation else none) include_enums at_.default ev
    (typeDocOf types atype) er

/-- One generated per-type object schema: `type: object` plus the mutated
`properties` dict (keys are the raw element/attribute names, possibly absent)
and `required` list. -/
structure TypeJsonSchema where
  properties : List (Option String × JValue)
  required : List (Option String)
  description : Option String
  deriving Repr

/-- The element/attribute loops of `generate_json_schema` for one type:
a property entry is added, and the name appended to `required` when the
(resolved) minOccurs is the string `'1'`, only when a property schema was
produced. -/
def elemStep (types : List (String × TypeInfo)) (include_docs include_enums : Bool)
    (acc : List (Option String × JValue) × List (Option String)) (el : ElemInfo) :
    List (Option String × JValue) × List (Option String) :=
  match elemPropSchema types include_docs include_enums el with
  | some o =>
    (dinsert el.name (JValue.obj o) acc.1,
     acc.2 ++ (if el.minOccurs = "1" then [el.name] else []))
  | none => acc

/-- One step of the attribute loop of `generate_json_schema`. -/
def attrStep (types : List (String × TypeInfo)) (include_docs include_enums : Bool)
    (acc : List (Option String × JValue) × List (Option String)) (at_ : AttrInfo) :
    List (Option String × JValue) × List (Option String) :=
  match attrPropSchema types include_docs include_enums at_ with
  | some o =>
    (dinsert at_.name (JValue.obj o) acc.1,
     acc.2 ++ (if (if at_.use = "required" then "1" else "0") = "1" then [at_.name] else []))
  | none => acc

def buildTypeSchema (types : List (String × TypeInfo)) (include_docs include_enums : Bool)
    (info : TypeInfo) : TypeJsonSchema :=
  let s1 := info.elements.foldl (elemStep types include_docs include_enums)
    (([] : List (Option String × JValue)), ([] : List (Option String)))
  let s2 := info.attributes.foldl (attrStep types include_docs include_enums) s1
  { properties := s2.1
    required := s2.2
    description := if include_docs ∧ truthyS info.documentation then info.documentation else none }

/-- `XSDGenerator.generate_json_schema`: the `definitions` dict (the fixed
metadata fields of the outer document are constants and are omitted).  Types
without elements and attributes are skipped. -/
def generateJsonSchema (types : List (String × TypeInfo)) (include_docs include_enums : Bool) :
    List (String × TypeJsonSchema) :=
  types.foldl
    (fun defs t =>
      if t.2.elements.isEmpty && t.2.attributes.isEmpty then defs
      else dinsert t.1 (buildTypeSchema types include_docs include_enums t.2) defs)
    []

/-! ## RenderEngine: `generate_jsonld_context`

The `@context` mapping is an ordered dict whose keys may be `None` (a
property dict's missing name); all values are plain strings.  `@shacl` is a
top-level sibling of `@context`. -/

/-- The generated context document. -/
structure ContextDoc where
  context : List (Option String × String)
  shacl : Option String
  deriving Repr, DecidableEq

/-- Insert-if-absent (`if term not in context: context[term] = v`). -/
def insertIfAbsent (k : Option String) (v : String) (c : List (Option String × String)) :
    List (Option String × String) :=
  if (alookup k c).isSome then c else c ++ [(k, v)]

/-- The fixed primitive-type IRI table appended to every context. -/
def contextXsdTypes : List (String × String) :=
  [("string", "xsd:string"), ("int", "xsd:int"), ("long", "xsd:long"),
   ("boolean", "xsd:boolean"), ("unsignedByte", "xsd:unsignedByte"),
   ("unsignedShort", "xsd:unsignedShort"), ("unsignedInt", "xsd:unsignedInt"),
   ("unsignedLong", "xsd:unsignedLong"), ("byte", "xsd:byte"), ("short", "xsd:short"),
   ("anyURI", "xsd:anyURI"), ("hexBinary", "xsd:hexBinary")]

/-- `XSDGenerator.generate_jsonld_context`.  As in the source, `include_docs`
and `include_enums` are accepted for API symmetry and never read; only
`include_schema` gates the property-name pass. -/
def generateJsonldContext (types : List (String × TypeInfo))
    (elements : List (String × RootElem)) (base_uri : String)
    (include_docs include_enums include_schema : Bool)
    (shacl_file_url : Option String) : ContextDoc :=
  let ctx0 : List (Option String × String) :=
    [(some "@vocab", base_uri),
     (some "xsd", "http://www.w3.org/2001/XMLSchema#"),
     (some "rdf", "http://www.w3.org/1999/02/22-rdf-syntax-ns#"),
     (some "rdfs", "http://www.w3.org/2000/01/rdf-schema#"),
     (some "owl", "http://www.w3.org/2002/07/owl#")]
  let shacl := if truthyS shacl_file_url then shacl_file_url else none
  let ctx1 := types.foldl (fun c t => dinsert (some t.1) "@id" c) ctx0
  let ctx2 :=
    if include_schema then
      types.foldl
        (fun c t =>
          let c' := t.2.elements.foldl (fun c el => insertIfAbsent el.name "@id" c) c
          t.2.attributes.foldl (fun c at_ => insertIfAbsent at_.name "@id" c) c')
        ctx1
    else ctx1
  let ctx3 := elements.foldl (fun c e => insertIfAbsent (some e.1) "@id" c) ctx2
  let ctx4 := contextXsdTypes.foldl (fun c t => insertIfAbsent (some t.1) t.2 c) ctx3
  { context := ctx4, shacl := shacl }

/-! ## OpenAPI composer: WADL methods → operations -/

/-- One declared request/response parameter (the parser stores every key, so
absent XML attributes surface as `None` values, not missing keys). -/
structure ParamInfo where
  name : Option String
  style : Option String
  type : Option String
  required : Bool
  description : Option String := none
  deriving Repr

/-- One representation (mediaType, element). -/
structure ReprInfo where
  mediaType : Option String
  element : Option String
  deriving Repr

/-- A request: representations plus declared parameters. -/
structure RequestInfo where
  representations : List ReprInfo
  parameters : List ParamInfo
  deriving Repr

/-- A response: representations plus the status string (default `'200'`). -/
structure ResponseInfo where
  representations : List ReprInfo
  status : String
  deriving Repr

/-- One WADL method. -/
structure MethodInfo where
  id : Option String
  name : Option String
  request : Option RequestInfo
  responses : List ResponseInfo
  deriving Repr

/-- JSON rendering of an optional string (Python `None` → JSON `null`). -/
def optStrJ : Option String → JValue
  | some s => .str s
  | none => .null

/-- Python `f"{x}"` of an optional string (`None` renders as `"None"`). -/
def pyFStr : Option String → String
  | some s => s
  | none => "None"

/-- Fuelled scan for `re.findall(r'\{(\w+)\}', path)`: non-overlapping
left-to-right matches of `{`, a maximal nonempty word run, `}`.  Each step
consumes at least one character, so fuel `cs.length` suffices. -/
def findPathParamsAux : Nat → List Char → List String
  | 0, _ => []
  | _ + 1, [] => []
  | fuel + 1, c :: rest =>
    if c = '\x7b' then
      let w := rest.takeWhile (fun ch => ch.isAlphanum ∨ ch = '_')
      match rest.drop w.length with
      | '\x7d' :: rest' =>
        if w.isEmpty then findPathParamsAux fuel rest
        else String.mk w :: findPathParamsAux fuel rest'
      | _ => findPathParamsAux fuel rest
    else findPathParamsAux fuel rest

/-- `re.findall(r'\{(\w+)\}', path)`. -/
def findPathParams (cs : List Char) : List String :=
  findPathParamsAux cs.length cs

/-- The content map entry schema for a representation: a `$ref` into
`components.schemas` when the (`sep:`-stripped) element name is a known
schema, else a generic object.  A `None` element would raise in the source;
it is modelled as the empty name. -/
def reprContentSchema (schemaNames : List String) (r : ReprInfo) : JValue :=
  let element := pyReplace (r.element.getD "") "sep:" ""
  if element ≠ "" ∧ element ∈ schemaNames then
    .obj [("$ref", .str ("#/components/schemas/" ++ element))]
  else .obj [("type", .str "object")]

/-- JSON-object key of a representation's media type (a stored `None`
serializes as the JSON key `"null"`). -/
def mediaKey (r : ReprInfo) : String :=
  match r.mediaType with
  | some s => s
  | none => "null"

/-- The `content` dict built from a representation list. -/
def contentMap (schemaNames : List String) (rs : List ReprInfo) : JObj :=
  rs.foldl (fun acc r =>
    dinsert (mediaKey r) (JValue.obj [("schema", reprContentSchema schemaNames r)]) acc) []

/-- One declared (query) parameter definition.  `param.get('style', 'query')`
and `param.get('type', '')` return the stored values (the keys are always
present), so a `None` style becomes JSON `null`; a `None` type would raise in
the source and is modelled as the empty string. -/
def queryParamDef (p : ParamInfo) : JValue :=
  .obj ([("name", optStrJ p.name),
         ("in", optStrJ p.style),
         ("required", .bool p.required),
         ("schema", .obj [("type",
            .str (if strContains "int" (p.type.getD "") then "integer" else "string"))])]
    ++ (if truthyS p.description then [("description", .str (p.description.getD ""))] else []))

/-- One synthesized path-template parameter definition. -/
def pathParamDef (n : String) : JValue :=
  .obj [("name", .str n), ("in", .str "path"), ("required", .bool true),
        ("schema", .obj [("type", .str "string")])]

/-- The `responses` dict of an operation. -/
def responsesObj (schemaNames : List String) (rs : List ResponseInfo) : JObj :=
  if rs.isEmpty then [("200", .obj [("description", .str "Success")])]
  else
    rs.foldl (fun acc resp =>
      dinsert resp.status
        (JValue.obj ([("description", .str (resp.status ++ " response"))]
          ++ (if !resp.representations.isEmpty then
                [("content", JValue.obj (contentMap schemaNames resp.representations))]
              else [])))
        acc) []

/-- The method-to-operation conversion of `generate_openapi_spec`: `none`
models the `continue` on a non-standard verb (a `None` method name, which
would raise in the source, lowers to `""` and is likewise skipped). -/
def methodToOperation (schemaNames : List String) (resId resDesc : Option String)
    (path : String) (m : MethodInfo) : Option JObj :=
  let verb := pyLowerS (m.name.getD "")
  if verb ∉ ["get", "post", "put", "delete", "patch", "head", "options"] then none
  else
    let base : JObj :=
      [("operationId", optStrJ m.id),
       ("summary", .str (pyUpperS verb ++ " " ++ pyFStr resId)),
       ("tags", .arr [optStrJ resId])]
    let descSeg := if truthyS resDesc then [("description", JValue.str (resDesc.getD ""))] else []
    let reqBodySeg :=
      if verb ∈ ["post", "put", "patch"] ∧ m.request.isSome
          ∧ !((m.request.map (fun r => r.representations)).getD []).isEmpty then
        [("requestBody", JValue.obj
            [("required", .bool true),
             ("content", .obj (contentMap schemaNames ((m.request.map (fun r => r.representations)).getD [])))])]
      else []
    let respSeg := [("responses", JValue.obj (responsesObj schemaNames m.responses))]
    let qDefs :=
      if verb = "get" ∧ m.request.isSome then
        ((m.request.map (fun r => r.parameters)).getD []).map queryParamDef
      else []
    let pDefs := (findPathParams path.toList).map pathParamDef
    let paramSeg :=
      if !qDefs.isEmpty || !pDefs.isEmpty then [("parameters", JValue.arr (qDefs ++ pDefs))]
      else []
    some (base ++ descSeg ++ reqBodySeg ++ respSeg ++ paramSeg)

/-! ## Concrete test inputs used by counterexamples and witnesses -/

/-- A registry of six bitmask carrier types, one per declared hex-binary
width. -/
def hexWidthRegistry : List (String × TypeInfo) :=
  [("B8", { restriction := some "HexBinary8" }),
   ("B16", { restriction := some "HexBinary16" }),
   ("B32", { restriction := some "HexBinary32" }),
   ("B48", { restriction := some "HexBinary48" }),
   ("B64", { restriction := some "HexBinary64" }),
   ("B160", { restriction := some "HexBinary160" })]

/-- The JSON-Schema `pattern` emitted for a bitmask property of the given
carrier type in `hexWidthRegistry`. -/
def bitmaskPatternOf (tname : String) : Option JValue :=
  olookup "pattern"
    ((createJsonSchemaProperty hexWidthRegistry (some tname) "1" "1"
        (some "bitmap of flags") true none (some [("0", "BitA"), ("1", "BitB")])
        none none).getD [])

/-- A registry with one simple type derived from `xs:unsignedByte` by
restriction. -/
def ubRegistry : List (String × TypeInfo) :=
  [("StatusType", { restriction := some "xs:unsignedByte" })]

/-- An `<enumeration>` facet whose `value` attribute is the empty string. -/
def emptyValFacet : XElem :=
  .mk (xsT "enumeration") [("value", "")] none none []

/-- A restriction holding only the empty-valued facet. -/
def restrEmptyFacet : XElem :=
  .mk (xsT "restriction") [("base", "xs:string")] none none [emptyValFacet]

/-- A simple type whose restriction holds one `<enumeration value=""/>`. -/
def teEmptyFacet : XElem :=
  .mk (xsT "simpleType") [("name", "EmptyFacetType")] none none [restrEmptyFacet]

/-- A facet `<enumeration value="1">` carrying its own documentation. -/
def facetC4a : XElem :=
  .mk (xsT "enumeration") [("value", "1")] none none
    [.mk (xsT "annotation") [] none none
      [.mk (xsT "documentation") [] (some "OnFacet") none []]]

/-- A facet `<enumeration value="2">` with no documentation. -/
def facetC4b : XElem :=
  .mk (xsT "enumeration") [("value", "2")] none none []

/-- A restriction with the two facets above. -/
def restrC4 : XElem :=
  .mk (xsT "restriction") [("base", "xs:unsignedByte")] none none [facetC4a, facetC4b]

/-- A simple type with doc-mined enum values `0 = Off` / `1 = On` and a
restriction whose facets redeclare `1` and add `2`. -/
def teC4 : XElem :=
  .mk (xsT "simpleType") [("name", "StatusType")] none none
    [.mk (xsT "annotation") [] none none
      [.mk (xsT "documentation") [] (some "0 = Off\n1 = On") none []],
     restrC4]

/-- A WADL POST method carrying both a request representation and a declared
request parameter. -/
def mC9 : MethodInfo :=
  { id := some "opPost"
    name := some "POST"
    request := some
      { representations := [{ mediaType := some "application/sep+xml", element := some "sep:Thing" }]
        parameters := [{ name := some "limit", style := some "query",
                         type := some "xs:int", required := false }] }
    responses := [] }

/-- A type with one mandatory string element and one required string
attribute. -/
def infoC10 : TypeInfo :=
  { elements := [{ name := some "a", type := some "string", minOccurs := "1", maxOccurs := "1" }]
    attributes := [{ name := some "b", type := some "string", use := "required", default := none }] }

/-- A type whose single element has `minOccurs = "1"` but an empty-string
`type` attribute (so no property schema is produced for it). -/
def infoEmptyType : TypeInfo :=
  { elements := [{ name := some "x", type := some "", minOccurs := "1", maxOccurs := "1" }]
    attributes := [] }

/-! ## Lemma infrastructure -/

/-- First-of-two-lookups combinator (`olookup` over a concatenation). -/
def oalt : Option JValue → Option JValue → Option JValue
  | some v, _ => some v
  | none, r => r

theorem olookup_append (k : String) (l₁ l₂ : JObj) :
    olookup k (l₁ ++ l₂) = oalt (olookup k l₁) (olookup k l₂) := by
  induction l₁ with
  | nil => simp [olookup, oalt]
  | cons h t ih =>
    obtain ⟨k', v⟩ := h
    by_cases hk : k' = k <;> simp [olookup, hk, ih, oalt]

theorem olookup_singleton_ne (k k' : String) (v : JValue) (h : k' ≠ k) :
    olookup k [(k', v)] = none := by
  simp [olookup, h]

theorem oalt_none_left (r : Option JValue) : oalt none r = r := rfl

theorem alookup_dinsert_self [DecidableEq α] (k : α) (v : β) (l : List (α × β)) :
    alookup k (dinsert k v l) = some v := by
  induction l with
  | nil => simp [dinsert, alookup]
  | cons h t ih =>
    obtain ⟨k', v'⟩ := h
    by_cases hk : k' = k <;> simp [dinsert, alookup, hk, ih]

theorem alookup_dinsert_ne [DecidableEq α] (k k' : α) (v : β) (l : List (α × β))
    (h : k' ≠ k) : alookup k (dinsert k' v l) = alookup k l := by
  induction l with
  | nil => simp [dinsert, alookup, h]
  | cons hd t ih =>
    obtain ⟨k'', v'⟩ := hd
    by_cases h1 : k'' = k' <;> by_cases h2 : k'' = k <;>
      simp_all [dinsert, alookup]

theorem mem_keys_dinsert_iff [DecidableEq α] (k k' : α) (v : β) (l : List (α × β)) :
    k' ∈ (dinsert k v l).map Prod.fst ↔ k' = k ∨ k' ∈ l.map Prod.fst := by
  induction l with
  | nil => simp [dinsert]
  | cons hd t ih =>
    obtain ⟨k₀, v₀⟩ := hd
    by_cases h1 : k₀ = k
    · subst h1; simp [dinsert]
    · simp only [dinsert, if_neg h1, List.map_cons, List.mem_cons, ih]
      tauto

theorem keys_dinsert_subset [DecidableEq α] (k k' : α) (v : β) (l : List (α × β))
    (h : k ∈ l.map Prod.fst) : k ∈ (dinsert k' v l).map Prod.fst :=
  (mem_keys_dinsert_iff k' k v l).mpr (Or.inr h)

theorem keys_dinsert_self [DecidableEq α] (k : α) (v : β) (l : List (α × β)) :
    k ∈ (dinsert k v l).map Prod.fst :=
  (mem_keys_dinsert_iff k k v l).mpr (Or.inl rfl)

theorem nodup_keys_dinsert [DecidableEq α] (k : α) (v : β) (l : List (α × β))
    (h : (l.map Prod.fst).Nodup) : ((dinsert k v l).map Prod.fst).Nodup := by
  induction l with
  | nil => simp [dinsert]
  | cons hd t ih =>
    obtain ⟨k₀, v₀⟩ := hd
    simp only [List.map_cons, List.nodup_cons] at h
    by_cases h1 : k₀ = k
    · subst h1
      simp only [dinsert, if_true, eq_self_iff_true, ite_true, List.map_cons,
        List.nodup_cons]
      exact ⟨h.1, h.2⟩
    · simp only [dinsert, if_neg h1, List.map_cons, List.nodup_cons]
      refine ⟨?_, ih h.2⟩
      intro hmem
      rcases (mem_keys_dinsert_iff k k₀ v t).mp hmem with h2 | h2
      · exact h1 h2
      · exact h.1 h2

/-! ## Claim theorems -/

/-- C8: the JSON-LD context renderer's output is invariant under the
`include_docs` and `include_enums` flags (they are accepted but never read);
and `include_schema` does gate whether property names are added, witnessed by
a concrete model where the element name `myProp` appears in the context
exactly when `include_schema` is set. -/
theorem C8_context_invariant_in_docs_enums :
    (∀ (types : List (String × TypeInfo)) (elements : List (String × RootElem))
        (base_uri : String) (s : Bool) (url : Option String) (d₁ e₁ d₂ e₂ : Bool),
        generateJsonldContext types elements base_uri d₁ e₁ s url =
          generateJsonldContext types elements base_uri d₂ e₂ s url)
    ∧ (alookup (some "myProp")
          (generateJsonldContext
            [("T", { elements := [{ name := some "myProp", type := some "x",
                                    minOccurs := "1", maxOccurs := "1" }] })]
            [] "https://b/" true true true none).context).isSome = true
    ∧ (alookup (some "myProp")
          (generateJsonldContext
            [("T", { elements := [{ name := some "myProp", type := some "x",
                                    minOccurs := "1", maxOccurs := "1" }] })]
            [] "https://b/" true true false none).context).isSome = false :=
  ⟨fun _ _ _ _ _ _ _ _ _ => rfl, rfl, rfl⟩

/-- C1: the width-to-hex-character table of the bitmask `pattern`.  Widths
8/16/32/48/64 produce 2/4/8/12/16 characters as claimed, but a base type
declaring width 160 matches the `'HexBinary16'` substring test first, so the
code emits a 4-character pattern instead of the claimed 40 (the dedicated
`HexBinary160` branch is unreachable dead code, contradicting the code's own
intent). -/
theorem C1_bitmask_pattern_width_table :
    bitmaskPatternOf "B8" = some (.str "^[0-9A-Fa-f]\x7b1,2\x7d$")
    ∧ bitmaskPatternOf "B16" = some (.str "^[0-9A-Fa-f]\x7b1,4\x7d$")
    ∧ bitmaskPatternOf "B32" = some (.str "^[0-9A-Fa-f]\x7b1,8\x7d$")
    ∧ bitmaskPatternOf "B48" = some (.str "^[0-9A-Fa-f]\x7b1,12\x7d$")
    ∧ bitmaskPatternOf "B64" = some (.str "^[0-9A-Fa-f]\x7b1,16\x7d$")
    ∧ bitmaskPatternOf "B160" = some (.str "^[0-9A-Fa-f]\x7b1,4\x7d$") :=
  ⟨by rfl, by rfl, by rfl, by rfl, by rfl, by rfl⟩

/-- C3 (counterexample): a well-formed document whose root is not a schema
element parses successfully — the claimed `ParseError` on a missing root
schema element does not occur. -/
theorem C3_counterexample_nonschema_root_accepted :
    (XElem.mk "notASchemaElement" [] none none []).tag ≠ xsT "schema"
    ∧ (xsdParse none (.wellFormed (XElem.mk "notASchemaElement" [] none none []))).isOk
      = true := by
  constructor
  · intro h
    simp [XElem.tag, xsT] at h
  · rfl

/-- C3 (amended): `parse` fails exactly when the input document is not
well-formed XML; the root element's tag is never inspected, and a well-formed
document never fails (missing optional attributes fall back to defaults). -/
theorem C3_parse_error_iff_malformed (baseUriArg : Option String) (input : XMLInput) :
    (∃ e, xsdParse baseUriArg input = .error e) ↔ input = .malformed := by
  cases input with
  | malformed => simp [xsdParse]
  | wellFormed root => simp [xsdParse]


theorem stepLine_values_congr (l : List Char) (st st' : EnumState)
    (h : st.values = st'.values) : (stepLine st l).values = (stepLine st' l).values := by
  unfold stepLine
  cases classifyLine l <;> simp [h]

theorem foldl_stepLine_values_congr (ls : List (List Char)) (st st' : EnumState)
    (h : st.values = st'.values) :
    ((ls.foldl stepLine st).values) = ((ls.foldl stepLine st').values) := by
  induction ls generalizing st st' with
  | nil => exact h
  | cons l rest ih =>
    simp only [List.foldl_cons]
    exact ih _ _ (stepLine_values_congr l st st' h)

theorem mem_ranges_stepLine (r : RangeInfo) (st : EnumState) (l : List Char)
    (h : r ∈ st.ranges) : r ∈ (stepLine st l).ranges := by
  unfold stepLine
  cases classifyLine l <;> simp [h]

theorem mem_ranges_foldl (r : RangeInfo) (ls : List (List Char)) (st : EnumState)
    (h : r ∈ st.ranges) : r ∈ (ls.foldl stepLine st).ranges := by
  induction ls generalizing st with
  | nil => exact h
  | cons l rest ih =>
    simp only [List.foldl_cons]
    exact ih _ (mem_ranges_stepLine r st l h)

theorem classify_reserved_range_line :
    classifyLine ("3 - 64: Reserved".toList) = .range ⟨3, 64, "Reserved"⟩ := by rfl

theorem optNE_of_ne_nil {l : List α} (h : l ≠ []) : optNE l = some l := by
  cases l with
  | nil => exact absurd rfl h
  | cons a t => rfl

/-- C7: any documentation text one of whose lines is `"3 - 64: Reserved"`
yields a parsed range record `{start: 3, end: 64, description: "Reserved"}`,
and that line contributes nothing to the enum values: the mined `enum_values`
equal those of the text with the line removed (the range pattern is tested
before the single-value pattern, which would otherwise also match this line). -/
theorem C7_reserved_range_line (doc : String) (pre post : List (List Char))
    (h : splitLines doc.toList = pre ++ "3 - 64: Reserved".toList :: post) :
    (∃ rs, (parseEnumValues doc).2 = some rs ∧ (⟨3, 64, "Reserved"⟩ : RangeInfo) ∈ rs)
    ∧ (parseEnumValues doc).1 = optNE ((pre ++ post).foldl stepLine ⟨[], []⟩).values := by
  have hdoc : doc ≠ "" := by
    intro he
    subst he
    have h0 : splitLines ("".toList) = [[]] := by rfl
    rw [h0] at h
    cases pre with
    | nil =>
      have h1 : ([] : List Char) = "3 - 64: Reserved".toList := by
        have := List.head_eq_of_cons_eq h.symm
        exact this.symm ▸ rfl
      exact absurd h1 (by decide)
    | cons p ps =>
      have h2 := congrArg List.length h
      simp at h2
  have hA : (splitLines doc.toList).foldl stepLine ⟨[], []⟩
      = post.foldl stepLine
          (stepLine (pre.foldl stepLine ⟨[], []⟩) ("3 - 64: Reserved".toList)) := by
    rw [h, List.foldl_append, List.foldl_cons]
  have hstep : stepLine (pre.foldl stepLine ⟨[], []⟩) ("3 - 64: Reserved".toList)
      = ⟨(pre.foldl stepLine ⟨[], []⟩).values,
         (pre.foldl stepLine ⟨[], []⟩).ranges ++ [⟨3, 64, "Reserved"⟩]⟩ := by
    unfold stepLine
    rw [classify_reserved_range_line]
  have hmem : (⟨3, 64, "Reserved"⟩ : RangeInfo)
      ∈ ((splitLines doc.toList).foldl stepLine ⟨[], []⟩).ranges := by
    rw [hA]
    apply mem_ranges_foldl
    rw [hstep]
    simp
  have hvals : ((splitLines doc.toList).foldl stepLine ⟨[], []⟩).values
      = ((pre ++ post).foldl stepLine ⟨[], []⟩).values := by
    rw [hA, List.foldl_append]
    apply foldl_stepLine_values_congr
    rw [hstep]
  constructor
  · refine ⟨((splitLines doc.toList).foldl stepLine ⟨[], []⟩).ranges, ?_, hmem⟩
    simp only [parseEnumValues, if_neg hdoc]
    exact optNE_of_ne_nil (List.ne_nil_of_mem hmem)
  · simp only [parseEnumValues, if_neg hdoc]
    rw [hvals]


/-- Witness for C7 at a concrete two-line documentation text. -/
theorem C7_reserved_range_line_witness :
    (splitLines ("0 = Off\n3 - 64: Reserved").toList
      = ["0 = Off".toList] ++ "3 - 64: Reserved".toList :: [])
    ∧ ((∃ rs, (parseEnumValues "0 = Off\n3 - 64: Reserved").2 = some rs
          ∧ (⟨3, 64, "Reserved"⟩ : RangeInfo) ∈ rs)
       ∧ (parseEnumValues "0 = Off\n3 - 64: Reserved").1
          = optNE (((["0 = Off".toList] ++ []).foldl stepLine ⟨[], []⟩)).values) :=
  ⟨by decide, C7_reserved_range_line "0 = Off\n3 - 64: Reserved" ["0 = Off".toList] [] (by decide)⟩


theorem olookup_if_single (c : Prop) [Decidable c] (k k' : String) (v : JValue)
    (h : ¬ k' = k) : olookup k (if c then [(k', v)] else []) = none := by
  split <;> simp [olookup, h]

theorem olookup_ite_none (c : Prop) [Decidable c] (k : String) (l₁ l₂ : JObj)
    (h1 : olookup k l₁ = none) (h2 : olookup k l₂ = none) :
    olookup k (if c then l₁ else l₂) = none := by
  split <;> assumption

theorem olookup_eq_none_of_keys (k : String) (l : JObj)
    (h : ∀ p ∈ l, p.1 ≠ k) : olookup k l = none := by
  induction l with
  | nil => rfl
  | cons hd t ih =>
    simp only [olookup]
    rw [if_neg (h hd (List.mem_cons_self hd t))]
    exact ih (fun p hp => h p (List.mem_cons_of_mem hd hp))

theorem keys_shaclDatatypeSeg (types : List (String × TypeInfo)) (pt : Option String) :
    ∀ p ∈ shaclDatatypeSeg types pt, p.1 = "sh:datatype" ∨ p.1 = "sh:node" := by
  unfold shaclDatatypeSeg
  split
  · cases hx : xsdTypeMap (cleanName pt) with
    | some v => simp only [hx]; simp
    | none =>
      simp only [hx]
      cases hl : lookupType types (cleanName pt) with
      | none =>
        simp only [hl]
        split
        · simp
        · split <;> simp
      | some info =>
        simp only [hl]
        split
        · simp
        · split
          · cases hb : xsdTypeMap (pyReplace ((pyOrS info.base info.restriction).getD "") "xs:" "") with
            | some v => simp only [hb]; simp
            | none =>
              simp only [hb]
              split <;> simp
          · simp
  · simp

theorem olookup_shaclDatatypeSeg_ne (types : List (String × TypeInfo)) (pt : Option String)
    (k : String) (h1 : k ≠ "sh:datatype") (h2 : k ≠ "sh:node") :
    olookup k (shaclDatatypeSeg types pt) = none := by
  apply olookup_eq_none_of_keys
  intro p hp
  rcases keys_shaclDatatypeSeg types pt p hp with h | h <;> rw [h]
  · exact Ne.symm h1
  · exact Ne.symm h2

theorem isNumericProp_of_ub (types : List (String × TypeInfo)) (c : String)
    (info : TypeInfo) (h1 : lookupType types c = some info)
    (h2 : pyOrS info.base info.restriction = some "xs:unsignedByte") :
    isNumericProp types c = true := by
  unfold isNumericProp
  split
  · rfl
  · rw [h1]
    simp only [h2]
    rfl

theorem btcOf_of_ub (types : List (String × TypeInfo)) (c : String) (info : TypeInfo)
    (h1 : lookupType types c = some info)
    (h2 : pyOrS info.base info.restriction = some "xs:unsignedByte") :
    btcOf types c = "unsignedByte" := by
  unfold btcOf
  rw [h1]
  simp only [h2]
  rfl


/-- C2 (amended): for any property whose type resolves in the registry to an
`xs:unsignedByte`-derived entry, with enum values keyed `0` and `1` and no
enum ranges, the property shape contains `sh:in [0, 1]` together with
`sh:minInclusive 0` and `sh:maxInclusive 255`. -/
theorem C2_ub_enum_shape_in_and_bounds (types : List (String × TypeInfo))
    (pt : Option String) (info : TypeInfo) (pn mino maxo : String)
    (doc dflt : Option String) (d0 d1 : String)
    (h1 : lookupType types (cleanName pt) = some info)
    (h2 : pyOrS info.base info.restriction = some "xs:unsignedByte") :
    olookup "sh:in" (createPropertyShape types pn pt mino maxo doc dflt
        (some [("0", d0), ("1", d1)]) none) = some (.arr [.int 0, .int 1])
    ∧ olookup "sh:minInclusive" (createPropertyShape types pn pt mino maxo doc dflt
        (some [("0", d0), ("1", d1)]) none) = some (.int 0)
    ∧ olookup "sh:maxInclusive" (createPropertyShape types pn pt mino maxo doc dflt
        (some [("0", d0), ("1", d1)]) none) = some (.int 255) := by
  have hnum := isNumericProp_of_ub types (cleanName pt) info h1 h2
  have hbtc := btcOf_of_ub types (cleanName pt) info h1 h2
  have e0 : shInValue true "0" = .int 0 := by rfl
  have e1 : shInValue true "1" = .int 1 := by rfl
  simp only [createPropertyShape, hnum, hbtc]
  simp [truthyL, olookup_append, oalt, olookup, olookup_if_single, olookup_ite_none, e0, e1]


/-- Witness for C2 (amended) at the concrete `StatusType` registry. -/
theorem C2_ub_enum_shape_witness :
    (lookupType ubRegistry (cleanName (some "StatusType"))
        = some { restriction := some "xs:unsignedByte" }
      ∧ pyOrS (TypeInfo.base { restriction := some "xs:unsignedByte" })
          (TypeInfo.restriction { restriction := some "xs:unsignedByte" })
          = some "xs:unsignedByte")
    ∧ (olookup "sh:in" (createPropertyShape ubRegistry "status" (some "StatusType") "0" "1"
          none none (some [("0", "Off"), ("1", "On")]) none) = some (.arr [.int 0, .int 1])
       ∧ olookup "sh:minInclusive" (createPropertyShape ubRegistry "status" (some "StatusType")
          "0" "1" none none (some [("0", "Off"), ("1", "On")]) none) = some (.int 0)
       ∧ olookup "sh:maxInclusive" (createPropertyShape ubRegistry "status" (some "StatusType")
          "0" "1" none none (some [("0", "Off"), ("1", "On")]) none) = some (.int 255)) :=
  ⟨⟨by rfl, by rfl⟩,
   C2_ub_enum_shape_in_and_bounds ubRegistry (some "StatusType")
     { restriction := some "xs:unsignedByte" } "status" "0" "1" none none "Off" "On"
     (by rfl) (by rfl)⟩


theorem olookup_nil (k : String) : olookup k ([] : JObj) = none := rfl

theorem olookup_shaclBoundsSeg_ne (b k : String)
    (h1 : k ≠ "sh:minInclusive") (h2 : k ≠ "sh:maxInclusive") :
    olookup k (shaclBoundsSeg b) = none := by
  unfold shaclBoundsSeg
  repeat' split
  all_goals simp [olookup, Ne.symm h1, Ne.symm h2]

theorem olookup_jsonBoundsSeg_ne (b k : String)
    (h1 : k ≠ "minimum") (h2 : k ≠ "maximum") :
    olookup k (jsonBoundsSeg b) = none := by
  unfold jsonBoundsSeg
  repeat' split
  all_goals simp [olookup, Ne.symm h1, Ne.symm h2]

theorem olookup_bitmaskSeg_ne (types : List (String × TypeInfo)) (clean : String)
    (doc : Option String) (vals : List (String × String)) (k : String)
    (h1 : k ≠ "description") (h2 : k ≠ "x-bit-positions") (h3 : k ≠ "pattern")
    (h4 : k ≠ "x-examples") : olookup k (bitmaskSeg types clean doc vals) = none := by
  unfold bitmaskSeg
  cases hs : hexBinarySize types clean with
  | some sz =>
    simp only [hs]
    simp [olookup, Ne.symm h1, Ne.symm h2, Ne.symm h3, Ne.symm h4]
  | none =>
    simp only [hs]
    simp [olookup, Ne.symm h1, Ne.symm h2]

theorem olookup_regularEnumSeg_of_ranges (isNum : Bool) (vals : List (String × String))
    (er : Option (List RangeInfo)) (doc : Option String) (k : String)
    (her : truthyL er = true) (h2 : k ≠ "x-enum-descriptions") (h3 : k ≠ "description") :
    olookup k (regularEnumSeg isNum vals er doc) = none := by
  unfold regularEnumSeg
  simp only [her]
  simp [olookup, Ne.symm h2, Ne.symm h3]

theorem typeStage_ref_lookup (types : List (String × TypeInfo)) (clean : String)
    (doc dflt : Option String) (o : JObj) (k : String)
    (h : typeStage types clean doc dflt = .ref o)
    (h1 : k ≠ "$ref") (h2 : k ≠ "description") (h3 : k ≠ "default") :
    olookup k o = none := by
  simp only [typeStage] at h
  repeat' split at h
  all_goals try (cases h)
  all_goals simp [olookup_append, oalt, olookup, Ne.symm h1, Ne.symm h2, Ne.symm h3]



theorem truthyL_some_of_ne {vals : List α} (h : vals ≠ []) :
    truthyL (some vals) = true := by
  cases vals with
  | nil => exact absurd rfl h
  | cons a t => rfl

theorem enumListAndDescs_fst_length (isNum : Bool) (vals : List (String × String)) :
    (enumListAndDescs isNum vals).1.length = vals.length := by
  unfold enumListAndDescs
  suffices h : ∀ (acc : List JValue × List (String × String)),
      ((vals.foldl (fun acc kv =>
        ((acc.1 ++ [(enumValuePair isNum kv.1).1]),
          if kv.2 ≠ "" then dinsert (enumValuePair isNum kv.1).2 kv.2 acc.2 else acc.2))
        acc).1.length) = acc.1.length + vals.length by
    have h2 := h ([], [])
    simpa using h2
  induction vals with
  | nil => intro acc; simp
  | cons hd t ih =>
    intro acc
    simp only [List.foldl_cons]
    rw [ih]
    simp
    omega

/-- Key preservation through the per-value descriptions fold. -/
theorem mem_keys_enumDescs_fold (isNum : Bool) (vals : List (String × String))
    (acc : List JValue × List (String × String)) (k : String)
    (h : k ∈ acc.2.map Prod.fst) :
    k ∈ ((vals.foldl (fun acc kv =>
        ((acc.1 ++ [(enumValuePair isNum kv.1).1]),
          if kv.2 ≠ "" then dinsert (enumValuePair isNum kv.1).2 kv.2 acc.2 else acc.2))
      acc).2.map Prod.fst) := by
  induction vals generalizing acc with
  | nil => exact h
  | cons hd t ih =>
    simp only [List.foldl_cons]
    apply ih
    split
    · exact keys_dinsert_subset k _ _ acc.2 h
    · exact h

/-- Every described value contributes its key to `enum_descriptions`. -/
theorem mem_keys_enumListAndDescs (isNum : Bool) (vals : List (String × String))
    (k d : String) (hmem : (k, d) ∈ vals) (hd : d ≠ "") :
    (enumValuePair isNum k).2 ∈ ((enumListAndDescs isNum vals).2.map Prod.fst) := by
  unfold enumListAndDescs
  suffices h : ∀ (acc : List JValue × List (String × String)),
      (enumValuePair isNum k).2 ∈ ((vals.foldl (fun acc kv =>
        ((acc.1 ++ [(enumValuePair isNum kv.1).1]),
          if kv.2 ≠ "" then dinsert (enumValuePair isNum kv.1).2 kv.2 acc.2 else acc.2))
        acc).2.map Prod.fst) from h ([], [])
  intro acc
  induction vals generalizing acc with
  | nil => simp at hmem
  | cons hd2 t ih =>
    rcases List.mem_cons.mp hmem with he | ht
    · subst he
      simp only [List.foldl_cons]
      apply mem_keys_enumDescs_fold
      simp only [if_pos hd]
      exact keys_dinsert_self _ _ _
    · simp only [List.foldl_cons]
      exact ih ht _

/-- Key preservation through the range-entry fold. -/
theorem mem_keys_ranges_fold (rs : List RangeInfo) (eds : List (String × String))
    (k : String) (h : k ∈ eds.map Prod.fst) :
    k ∈ ((rs.foldl (fun acc r => dinsert (rangeKey r) r.description acc) eds).map Prod.fst) := by
  induction rs generalizing eds with
  | nil => exact h
  | cons hd t ih =>
    simp only [List.foldl_cons]
    exact ih _ (keys_dinsert_subset k _ _ eds h)

theorem mem_keys_ranges_fold_self (rs : List RangeInfo) (eds : List (String × String))
    (r : RangeInfo) (h : r ∈ rs) :
    rangeKey r ∈ ((rs.foldl (fun acc r => dinsert (rangeKey r) r.description acc) eds).map Prod.fst) := by
  induction rs generalizing eds with
  | nil => simp at h
  | cons hd t ih =>
    rcases List.mem_cons.mp h with he | ht
    · subst he
      simp only [List.foldl_cons]
      exact mem_keys_ranges_fold t _ _ (keys_dinsert_self _ _ _)
    · simp only [List.foldl_cons]
      exact ih _ ht

/-- Every range contributes its `"start - end"` key to `x-enum-descriptions`. -/
theorem mem_keys_xEnumDescEntries_range (eds : List (String × String))
    (er : Option (List RangeInfo)) (r : RangeInfo) (h : r ∈ er.getD []) :
    rangeKey r ∈ ((xEnumDescEntries eds er).map Prod.fst) :=
  mem_keys_ranges_fold_self (er.getD []) eds r h

theorem mem_keys_xEnumDescEntries_desc (eds : List (String × String))
    (er : Option (List RangeInfo)) (k : String) (h : k ∈ eds.map Prod.fst) :
    k ∈ ((xEnumDescEntries eds er).map Prod.fst) :=
  mem_keys_ranges_fold (er.getD []) eds k h


theorem olookup_fmtSeg_ne (fmt : Option String) (k : String) (h : k ≠ "format") :
    olookup k (match fmt with | some f => [("format", JValue.str f)] | none => []) = none := by
  cases fmt <;> simp [olookup, Ne.symm h]

theorem olookup_typeSeg_ne (jt : Option String) (k : String) (h : k ≠ "type") :
    olookup k (match jt with | some t => [("type", JValue.str t)] | none => []) = none := by
  cases jt <;> simp [olookup, Ne.symm h]

theorem map_fst_map_str (l : List (String × String)) :
    (l.map (fun kv => (kv.1, JValue.str kv.2))).map Prod.fst = l.map Prod.fst := by
  induction l with
  | nil => rfl
  | cons hd t ih => simp [ih]

theorem olookup_xenum_regularEnumSeg (isNum : Bool) (vals : List (String × String))
    (er : Option (List RangeInfo)) (doc : Option String)
    (hp : (!(enumListAndDescs isNum vals).2.isEmpty || truthyL er) = true) :
    olookup "x-enum-descriptions" (regularEnumSeg isNum vals er doc)
      = some (.obj ((xEnumDescEntries (enumListAndDescs isNum vals).2 er).map
          (fun kv => (kv.1, JValue.str kv.2)))) := by
  unfold regularEnumSeg
  simp only [olookup_append, oalt, hp]
  rw [olookup_if_single _ _ _ _ (by decide)]
  simp [olookup]

/-- C6 (counterexample): a property with enum ranges but no enum values gets
no `x-enum-descriptions` side channel at all — the side channel is only
populated under `if enum_values:`. -/
theorem C6_counterexample_ranges_without_values :
    truthyL (some [(⟨3, 64, "Reserved"⟩ : RangeInfo)]) = true
    ∧ (createJsonSchemaProperty [] (some "unsignedByte") "1" "1" none true none
        none none (some [⟨3, 64, "Reserved"⟩])).isSome = true
    ∧ olookup "x-enum-descriptions"
        ((createJsonSchemaProperty [] (some "unsignedByte") "1" "1" none true none
          none none (some [⟨3, 64, "Reserved"⟩])).getD []) = none :=
  ⟨by rfl, by rfl, by rfl⟩

/-- C6 (amended): for every non-bitmask, non-array property with a nonempty
enum-value mapping, the JSON-Schema renderer populates `x-enum-descriptions`
whenever at least one value has a nonempty description or enum ranges exist —
in particular even when ranges suppress the native `enum` — with one key per
range of the form `"start - end"` and a key per described discrete value.  A
property with ranges but no enum values gets no side channel. -/
theorem C6_xenum_descriptions_populated (types : List (String × TypeInfo))
    (pt : Option String) (mino maxo : String) (doc dflt : Option String)
    (vals : List (String × String)) (tdoc : Option String)
    (er : Option (List RangeInfo)) (ie : Bool) (fmt jt : Option String)
    (hpt : truthyS pt = true) (hvals : vals ≠ [])
    (hts : typeStage types (cleanName pt) doc dflt = .plain fmt jt)
    (hbm : isBitmaskFlag fmt (some vals) doc tdoc = false)
    (hw : wrapCond maxo = false) :
    ∃ o, createJsonSchemaProperty types pt mino maxo doc ie dflt (some vals) tdoc er = some o
      ∧ ((!(enumListAndDescs (enumIsNumeric types (cleanName pt) jt) vals).2.isEmpty
            || truthyL er) = true →
          ∃ inner, olookup "x-enum-descriptions" o = some (.obj inner)
            ∧ (∀ r ∈ er.getD [], rangeKey r ∈ inner.map Prod.fst)
            ∧ (∀ k d, (k, d) ∈ vals → d ≠ "" →
                (enumValuePair (enumIsNumeric types (cleanName pt) jt) k).2
                  ∈ inner.map Prod.fst)) := by
  have hev : truthyL (some vals) = true := truthyL_some_of_ne hvals
  have hcoreLookup : ∀ (hp : (!(enumListAndDescs (enumIsNumeric types (cleanName pt) jt)
        vals).2.isEmpty || truthyL er) = true),
      olookup "x-enum-descriptions"
        (jspCore types (cleanName pt) doc (some vals) tdoc er fmt jt)
      = some (.obj ((xEnumDescEntries
          ((enumListAndDescs (enumIsNumeric types (cleanName pt) jt) vals).2) er).map
          (fun kv => (kv.1, JValue.str kv.2)))) := by
    intro hp
    unfold jspCore
    simp only [olookup_append, oalt, hev, if_true, hbm, if_false, Bool.false_eq_true,
      Option.getD_some]
    rw [olookup_fmtSeg_ne fmt _ (by decide), olookup_typeSeg_ne jt _ (by decide),
      olookup_xenum_regularEnumSeg _ _ _ _ hp]
  have hne : regularEnumSeg (enumIsNumeric types (cleanName pt) jt) vals er doc ≠ [] := by
    unfold regularEnumSeg
    cases herb : truthyL er with
    | true =>
      have : (!(enumListAndDescs (enumIsNumeric types (cleanName pt) jt) vals).2.isEmpty
          || truthyL er) = true := by simp [herb]
      simp [this, herb]
    | false =>
      have hel : (enumListAndDescs (enumIsNumeric types (cleanName pt) jt) vals).1 ≠ [] := by
        intro hc
        have := enumListAndDescs_fst_length (enumIsNumeric types (cleanName pt) jt) vals
        rw [hc] at this
        exact hvals (List.eq_nil_of_length_eq_zero this.symm)
      simp [herb, hel, List.isEmpty_eq_true]
  have hcorene : jspCore types (cleanName pt) doc (some vals) tdoc er fmt jt ≠ [] := by
    unfold jspCore
    simp only [hev, if_true, hbm, Bool.false_eq_true, if_false, Option.getD_some]
    simp [List.append_eq_nil, hne]
  have hfinne : jspFinal types (cleanName pt) mino maxo doc dflt (some vals) tdoc er fmt jt
      ≠ [] := by
    unfold jspFinal jspWrapped
    simp only [hw, Bool.false_eq_true, if_false]
    simp [List.append_eq_nil]
    intro h1
    exact absurd h1 hcorene
  have hsome : createJsonSchemaProperty types pt mino maxo doc ie dflt (some vals) tdoc er
      = some (jspFinal types (cleanName pt) mino maxo doc dflt (some vals) tdoc er fmt jt) := by
    simp only [createJsonSchemaProperty, hpt, not_true_eq_false, Bool.false_eq_true,
      if_false, hts]
    unfold jspAssemble
    rw [if_neg (by simp only [List.isEmpty_eq_true]; exact hfinne)]
  refine ⟨_, hsome, ?_⟩
  intro hp
  have hfin : olookup "x-enum-descriptions"
      (jspFinal types (cleanName pt) mino maxo doc dflt (some vals) tdoc er fmt jt)
      = some (.obj ((xEnumDescEntries
          ((enumListAndDescs (enumIsNumeric types (cleanName pt) jt) vals).2) er).map
          (fun kv => (kv.1, JValue.str kv.2)))) := by
    unfold jspFinal jspWrapped
    simp only [hw, Bool.false_eq_true, if_false]
    simp only [olookup_append, oalt]
    rw [hcoreLookup hp]
  refine ⟨_, hfin, ?_, ?_⟩
  · intro r hr
    rw [map_fst_map_str]
    exact mem_keys_xEnumDescEntries_range _ er r hr
  · intro k d hkd hd
    rw [map_fst_map_str]
    exact mem_keys_xEnumDescEntries_desc _ er _
      (mem_keys_enumListAndDescs (enumIsNumeric types (cleanName pt) jt) vals k d hkd hd)


/-- Witness for C6 (amended) at a concrete string-typed property with one
described value and one range. -/
theorem C6_xenum_descriptions_witness :
    (truthyS (some "string") = true ∧ ([("0", "Off")] : List (String × String)) ≠ []
      ∧ typeStage [] (cleanName (some "string")) none none = .plain none (some "string")
      ∧ isBitmaskFlag none (some [("0", "Off")]) none none = false
      ∧ wrapCond "1" = false)
    ∧ ∃ o, createJsonSchemaProperty [] (some "string") "1" "1" none true none
        (some [("0", "Off")]) none (some [⟨3, 64, "Reserved"⟩]) = some o
      ∧ ((!(enumListAndDescs (enumIsNumeric [] (cleanName (some "string")) (some "string"))
            [("0", "Off")]).2.isEmpty
          || truthyL (some [(⟨3, 64, "Reserved"⟩ : RangeInfo)])) = true →
          ∃ inner, olookup "x-enum-descriptions" o = some (.obj inner)
            ∧ (∀ r ∈ (some [(⟨3, 64, "Reserved"⟩ : RangeInfo)]
                  : Option (List RangeInfo)).getD [],
                rangeKey r ∈ inner.map Prod.fst)
            ∧ (∀ k d, (k, d) ∈ [("0", "Off")] → d ≠ "" →
                (enumValuePair (enumIsNumeric [] (cleanName (some "string"))
                  (some "string")) k).2 ∈ inner.map Prod.fst)) :=
  ⟨⟨by rfl, by decide, by rfl, by rfl, by rfl⟩,
   C6_xenum_descriptions_populated [] (some "string") "1" "1" none none [("0", "Off")] none
     (some [⟨3, 64, "Reserved"⟩]) true none (some "string") (by rfl) (by decide) (by rfl)
     (by rfl) (by rfl)⟩


theorem olookup_if_pair (c : Prop) [Decidable c] (k k1 k2 : String) (v1 v2 : JValue)
    (ha : ¬ k1 = k) (hb : ¬ k2 = k) :
    olookup k (if c then [(k1, v1), (k2, v2)] else []) = none := by
  split <;> simp [olookup, ha, hb]

theorem olookup_regularEnumSeg_ne (isNum : Bool) (vals : List (String × String))
    (er : Option (List RangeInfo)) (doc : Option String) (k : String)
    (h1 : k ≠ "enum") (h2 : k ≠ "x-enum-descriptions") (h3 : k ≠ "description") :
    olookup k (regularEnumSeg isNum vals er doc) = none := by
  unfold regularEnumSeg
  simp only [olookup_append, oalt]
  rw [olookup_if_single _ _ _ _ (Ne.symm h1),
    olookup_ite_none _ k _ []
      (by simp [olookup_append, oalt, olookup, Ne.symm h2, Ne.symm h3]) rfl]

theorem olookup_jspCore_of_ranges (types : List (String × TypeInfo)) (clean : String)
    (doc : Option String) (ev : Option (List (String × String))) (tdoc : Option String)
    (er : Option (List RangeInfo)) (fmt jt : Option String) (k : String)
    (her : truthyL er = true)
    (h1 : k ≠ "format") (h2 : k ≠ "type") (h3 : k ≠ "description")
    (h4 : k ≠ "x-bit-positions") (h5 : k ≠ "pattern") (h6 : k ≠ "x-examples")
    (h7 : k ≠ "x-enum-descriptions") (h8 : k ≠ "minimum") (h9 : k ≠ "maximum") :
    olookup k (jspCore types clean doc ev tdoc er fmt jt) = none := by
  have hb : olookup k
      (if truthyL ev then
        if isBitmaskFlag fmt ev doc tdoc then bitmaskSeg types clean doc (ev.getD [])
        else regularEnumSeg (enumIsNumeric types clean jt) (ev.getD []) er doc
      else []) = none := by
    split
    · split
      · exact olookup_bitmaskSeg_ne types clean doc (ev.getD []) k h3 h4 h5 h6
      · exact olookup_regularEnumSeg_of_ranges (enumIsNumeric types clean jt) (ev.getD [])
          er doc k her h7 h3
    · rfl
  have hc : olookup k
      (if jt = some "integer" then jsonBoundsSeg (btcOf types clean) else []) = none := by
    split
    · exact olookup_jsonBoundsSeg_ne (btcOf types clean) k h8 h9
    · rfl
  unfold jspCore
  simp only [olookup_append, oalt]
  rw [olookup_fmtSeg_ne fmt k h1, olookup_typeSeg_ne jt k h2, hb, hc]

theorem olookup_jspCore_ne (types : List (String × TypeInfo)) (clean : String)
    (doc : Option String) (ev : Option (List (String × String))) (tdoc : Option String)
    (er : Option (List RangeInfo)) (fmt jt : Option String) (k : String)
    (h0 : k ≠ "enum")
    (h1 : k ≠ "format") (h2 : k ≠ "type") (h3 : k ≠ "description")
    (h4 : k ≠ "x-bit-positions") (h5 : k ≠ "pattern") (h6 : k ≠ "x-examples")
    (h7 : k ≠ "x-enum-descriptions") (h8 : k ≠ "minimum") (h9 : k ≠ "maximum") :
    olookup k (jspCore types clean doc ev tdoc er fmt jt) = none := by
  have hb : olookup k
      (if truthyL ev then
        if isBitmaskFlag fmt ev doc tdoc then bitmaskSeg types clean doc (ev.getD [])
        else regularEnumSeg (enumIsNumeric types clean jt) (ev.getD []) er doc
      else []) = none := by
    split
    · split
      · exact olookup_bitmaskSeg_ne types clean doc (ev.getD []) k h3 h4 h5 h6
      · exact olookup_regularEnumSeg_ne (enumIsNumeric types clean jt) (ev.getD [])
          er doc k h0 h7 h3
    · rfl
  have hc : olookup k
      (if jt = some "integer" then jsonBoundsSeg (btcOf types clean) else []) = none := by
    split
    · exact olookup_jsonBoundsSeg_ne (btcOf types clean) k h8 h9
    · rfl
  unfold jspCore
  simp only [olookup_append, oalt]
  rw [olookup_fmtSeg_ne fmt k h1, olookup_typeSeg_ne jt k h2, hb, hc]

theorem jspAssemble_eq_some (types : List (String × TypeInfo)) (clean : String)
    (mino maxo : String) (doc dflt : Option String)
    (ev : Option (List (String × String))) (tdoc : Option String)
    (er : Option (List RangeInfo)) (fmt jt : Option String) (o : JObj)
    (ho : jspAssemble types clean mino maxo doc dflt ev tdoc er fmt jt = some o) :
    o = jspFinal types clean mino maxo doc dflt ev tdoc er fmt jt := by
  unfold jspAssemble at ho
  split at ho
  · cases ho
  · injection ho with ho
    exact ho.symm

theorem olookup_jspWrapped_enum (types : List (String × TypeInfo)) (clean : String)
    (mino maxo : String) (doc : Option String) (ev : Option (List (String × String)))
    (tdoc : Option String) (er : Option (List RangeInfo)) (fmt jt : Option String)
    (her : truthyL er = true) :
    olookup "enum" (jspWrapped types clean mino maxo doc ev tdoc er fmt jt) = none := by
  unfold jspWrapped
  split
  · simp [olookup, olookup_append, oalt, olookup_if_single, olookup_ite_none]
  · exact olookup_jspCore_of_ranges types clean doc ev tdoc er fmt jt "enum" her
      (by decide) (by decide) (by decide) (by decide) (by decide) (by decide)
      (by decide) (by decide) (by decide)

theorem olookup_jspFinal_enum (types : List (String × TypeInfo)) (clean : String)
    (mino maxo : String) (doc dflt : Option String)
    (ev : Option (List (String × String))) (tdoc : Option String)
    (er : Option (List RangeInfo)) (fmt jt : Option String)
    (her : truthyL er = true) :
    olookup "enum" (jspFinal types clean mino maxo doc dflt ev tdoc er fmt jt) = none := by
  have h1 := olookup_jspWrapped_enum types clean mino maxo doc ev tdoc er fmt jt her
  unfold jspFinal
  simp only [olookup_append, oalt]
  rw [h1]
  simp [oalt, olookup, olookup_if_single, olookup_ite_none]

theorem olookup_jspFinal_items (types : List (String × TypeInfo)) (clean : String)
    (mino maxo : String) (doc dflt : Option String)
    (ev : Option (List (String × String))) (tdoc : Option String)
    (er : Option (List RangeInfo)) (fmt jt : Option String) :
    olookup "items" (jspFinal types clean mino maxo doc dflt ev tdoc er fmt jt)
      = if wrapCond maxo then
          some (.obj (jspCore types clean doc ev tdoc er fmt jt))
        else none := by
  have hcoreI : olookup "items" (jspCore types clean doc ev tdoc er fmt jt) = none :=
    olookup_jspCore_ne types clean doc ev tdoc er fmt jt "items"
      (by decide) (by decide) (by decide) (by decide) (by decide) (by decide)
      (by decide) (by decide) (by decide) (by decide)
  have hw : olookup "items" (jspWrapped types clean mino maxo doc ev tdoc er fmt jt)
      = if wrapCond maxo then
          some (.obj (jspCore types clean doc ev tdoc er fmt jt))
        else none := by
    unfold jspWrapped
    split
    · next hcond =>
      simp [hcond, olookup, olookup_append, oalt]
    · next hcond =>
      simp only [Bool.not_eq_true] at hcond
      simp [hcond, hcoreI]
  unfold jspFinal
  simp only [olookup_append, oalt]
  rw [hw]
  by_cases hc : wrapCond maxo = true
  · simp [hc, oalt]
  · simp [hc, oalt, olookup, olookup_if_single, olookup_ite_none]

/-- C2 (counterexample): for a property whose type restricts
`xs:unsignedByte` with enum values `{0: Off, 1: On}` and no ranges, the
generated shape contains `sh:in [0, 1]` but ALSO the width bounds
`sh:minInclusive 0` / `sh:maxInclusive 255`, so the claimed absence of
bounds is false. -/
theorem C2_counterexample_bounds_present :
    (olookup "sh:in" (createPropertyShape ubRegistry "status" (some "StatusType") "0" "1"
        none none (some [("0", "Off"), ("1", "On")]) none)
      = some (.arr [.int 0, .int 1]))
    ∧ (olookup "sh:minInclusive" (createPropertyShape ubRegistry "status" (some "StatusType")
        "0" "1" none none (some [("0", "Off"), ("1", "On")]) none)
      = some (.int 0))
    ∧ (olookup "sh:maxInclusive" (createPropertyShape ubRegistry "status" (some "StatusType")
        "0" "1" none none (some [("0", "Off"), ("1", "On")]) none)
      = some (.int 255)) :=
  ⟨by rfl, by rfl, by rfl⟩

/-- C5: whenever a property has both enum values and enum ranges, the SHACL
renderer omits `sh:in` and the JSON-Schema renderer omits the native `enum`
array (at the property level and inside an array wrapper's `items`), so the
two formats agree that the property is open-range rather than closed-enum. -/
theorem C5_no_closed_enum_with_ranges (types : List (String × TypeInfo)) (pn : String)
    (pt : Option String) (mino maxo : String) (doc dflt : Option String)
    (ev : Option (List (String × String))) (er : Option (List RangeInfo))
    (ie : Bool) (tdoc : Option String)
    (hev : truthyL ev = true) (her : truthyL er = true) :
    olookup "sh:in" (createPropertyShape types pn pt mino maxo doc dflt ev er) = none
    ∧ (∀ o, createJsonSchemaProperty types pt mino maxo doc ie dflt ev tdoc er = some o →
        olookup "enum" o = none
        ∧ ∀ inner, olookup "items" o = some (.obj inner) → olookup "enum" inner = none) := by
  constructor
  · simp only [createPropertyShape, her]
    simp [olookup_append, oalt, olookup, olookup_if_single, olookup_ite_none,
      olookup_shaclBoundsSeg_ne, olookup_shaclDatatypeSeg_ne]
  · intro o ho
    unfold createJsonSchemaProperty at ho
    split at ho
    · cases ho
    · cases hts : typeStage types (cleanName pt) doc dflt with
      | ref o2 =>
        simp only [hts] at ho
        injection ho with ho
        subst ho
        refine ⟨typeStage_ref_lookup types (cleanName pt) doc dflt _ "enum" hts
          (by decide) (by decide) (by decide), ?_⟩
        intro inner hinner
        rw [typeStage_ref_lookup types (cleanName pt) doc dflt _ "items" hts
          (by decide) (by decide) (by decide)] at hinner
        cases hinner
      | plain fmt jt =>
        simp only [hts] at ho
        have hofin := jspAssemble_eq_some types (cleanName pt) mino maxo doc dflt ev tdoc
          er fmt jt o ho
        subst hofin
        refine ⟨olookup_jspFinal_enum types (cleanName pt) mino maxo doc dflt ev tdoc
          er fmt jt her, ?_⟩
        intro inner hinner
        rw [olookup_jspFinal_items] at hinner
        by_cases hw : wrapCond maxo = true
        · simp only [hw, if_true] at hinner
          have hci : jspCore types (cleanName pt) doc ev tdoc er fmt jt = inner := by
            injection hinner with hinner
            injection hinner
          rw [← hci]
          exact olookup_jspCore_of_ranges types (cleanName pt) doc ev tdoc er fmt jt
            "enum" her (by decide) (by decide) (by decide) (by decide) (by decide)
            (by decide) (by decide) (by decide) (by decide)
        · simp [hw] at hinner

/-- Witness for C5 at a concrete property carrying both an enum value and a
range. -/
theorem C5_no_closed_enum_witness :
    (truthyL (some [("0", "Off")]) = true
      ∧ truthyL (some [(⟨3, 64, "Reserved"⟩ : RangeInfo)]) = true)
    ∧ olookup "sh:in" (createPropertyShape [] "p" (some "unsignedByte") "1" "1" none none
        (some [("0", "Off")]) (some [⟨3, 64, "Reserved"⟩])) = none
    ∧ (createJsonSchemaProperty [] (some "unsignedByte") "1" "1" none true none
        (some [("0", "Off")]) none (some [⟨3, 64, "Reserved"⟩])).isSome = true
    ∧ olookup "enum" ((createJsonSchemaProperty [] (some "unsignedByte") "1" "1" none true
        none (some [("0", "Off")]) none (some [⟨3, 64, "Reserved"⟩])).getD []) = none :=
  ⟨⟨by rfl, by rfl⟩,
   (C5_no_closed_enum_with_ranges [] "p" (some "unsignedByte") "1" "1" none none
      (some [("0", "Off")]) (some [⟨3, 64, "Reserved"⟩]) true none (by rfl) (by rfl)).1,
   by rfl,
   ((C5_no_closed_enum_with_ranges [] "p" (some "unsignedByte") "1" "1" none none
      (some [("0", "Off")]) (some [⟨3, 64, "Reserved"⟩]) true none (by rfl) (by rfl)).2
      ((createJsonSchemaProperty [] (some "unsignedByte") "1" "1" none true none
        (some [("0", "Off")]) none (some [⟨3, 64, "Reserved"⟩])).getD []) (by rfl)).1⟩

/-! ## C4: restriction-facet enum entries -/

theorem facetStep_alookup (ev : Option (List (String × String))) (f : XElem) (v : String) :
    alookup v ((facetStep ev f).getD []) =
      if facetHits f v then some (facetText f v) else alookup v (ev.getD []) := by
  have hev1 : alookup v (((if ev.isSome then ev else some []).getD []) : List (String × String))
      = alookup v (ev.getD []) := by cases ev <;> rfl
  unfold facetStep
  cases hfv : f.attr "value" with
  | none =>
    simp only [hfv, facetHits]
    simp [hev1]
  | some w =>
    rcases eq_or_ne w "" with rfl | hw
    · simp only [hfv, facetHits]
      rcases eq_or_ne v "" with rfl | hv
      · simp [hev1]
      · simp [hev1, Ne.symm hv]
    · rcases eq_or_ne w v with rfl | hwv
      · simp only [hfv, facetHits, facetText]
        simp [hw, alookup_dinsert_self]
      · simp only [hfv, facetHits]
        simp [hw, hwv, alookup_dinsert_ne v w _ _ hwv, hev1]

theorem facetStep_isSome (ev : Option (List (String × String))) (f : XElem) :
    (facetStep ev f).isSome = true := by
  have h1 : ((if ev.isSome then ev else some []) : Option (List (String × String))).isSome
      = true := by cases ev <;> rfl
  unfold facetStep
  cases hfv : f.attr "value" with
  | none => simp only [hfv]; exact h1
  | some w =>
    simp only [hfv]
    split
    · rfl
    · exact h1

theorem foldl_facetStep_isSome (fs : List XElem) (ev : Option (List (String × String)))
    (h : ev.isSome = true) : (fs.foldl facetStep ev).isSome = true := by
  induction fs generalizing ev with
  | nil => exact h
  | cons f fs ih => exact ih _ (facetStep_isSome ev f)

theorem foldl_facetStep_isSome_of_ne (fs : List XElem) (ev : Option (List (String × String)))
    (h : fs ≠ []) : (fs.foldl facetStep ev).isSome = true := by
  cases fs with
  | nil => exact absurd rfl h
  | cons f fs => exact foldl_facetStep_isSome fs _ (facetStep_isSome ev f)

theorem facetStep_mem_keys (ev : Option (List (String × String))) (f : XElem) (k : String)
    (h : k ∈ (ev.getD []).map Prod.fst) :
    k ∈ ((facetStep ev f).getD []).map Prod.fst := by
  have hev1 : (((if ev.isSome then ev else some []).getD []) : List (String × String))
      = ev.getD [] := by cases ev <;> rfl
  unfold facetStep
  cases hfv : f.attr "value" with
  | none => simp only [hfv]; rw [hev1]; exact h
  | some w =>
    simp only [hfv]
    split
    · refine (mem_keys_dinsert_iff _ _ _ _).mpr (Or.inr ?_)
      rw [hev1]; exact h
    · rw [hev1]; exact h

theorem facetStep_mem_keys_self (ev : Option (List (String × String))) (f : XElem)
    (v : String) (h : facetHits f v = true) :
    v ∈ ((facetStep ev f).getD []).map Prod.fst := by
  simp only [facetHits, decide_eq_true_eq] at h
  unfold facetStep
  simp only [h.1]
  rw [if_pos h.2]
  exact keys_dinsert_self _ _ _

theorem foldl_facetStep_mem_keys (fs : List XElem) (ev : Option (List (String × String)))
    (k : String) (h : k ∈ (ev.getD []).map Prod.fst) :
    k ∈ ((fs.foldl facetStep ev).getD []).map Prod.fst := by
  induction fs generalizing ev with
  | nil => exact h
  | cons f fs ih => exact ih _ (facetStep_mem_keys ev f k h)

theorem foldl_facetStep_mem_keys_hit (fs : List XElem) (ev : Option (List (String × String)))
    (v : String) (h : ∃ f ∈ fs, facetHits f v = true) :
    v ∈ ((fs.foldl facetStep ev).getD []).map Prod.fst := by
  induction fs generalizing ev with
  | nil => obtain ⟨f, hf, _⟩ := h; cases hf
  | cons f fs ih =>
    obtain ⟨g, hg, hhit⟩ := h
    rcases List.mem_cons.mp hg with rfl | hg2
    · exact foldl_facetStep_mem_keys fs _ v (facetStep_mem_keys_self ev g v hhit)
    · exact ih _ ⟨g, hg2, hhit⟩

theorem facetStep_nodup_keys (ev : Option (List (String × String))) (f : XElem)
    (h : ((ev.getD []).map Prod.fst).Nodup) :
    (((facetStep ev f).getD []).map Prod.fst).Nodup := by
  have hev1 : (((if ev.isSome then ev else some []).getD []) : List (String × String))
      = ev.getD [] := by cases ev <;> rfl
  unfold facetStep
  cases hfv : f.attr "value" with
  | none => simp only [hfv]; rw [hev1]; exact h
  | some w =>
    simp only [hfv]
    split
    · refine nodup_keys_dinsert _ _ _ ?_
      rw [hev1]; exact h
    · rw [hev1]; exact h

theorem foldl_facetStep_nodup_keys (fs : List XElem) (ev : Option (List (String × String)))
    (h : ((ev.getD []).map Prod.fst).Nodup) :
    (((fs.foldl facetStep ev).getD []).map Prod.fst).Nodup := by
  induction fs generalizing ev with
  | nil => exact h
  | cons f fs ih => exact ih _ (facetStep_nodup_keys ev f h)

theorem foldl_facetStep_alookup_congr (fs : List XElem) (v : String)
    (ev ev' : Option (List (String × String)))
    (h : alookup v (ev.getD []) = alookup v (ev'.getD [])) :
    alookup v ((fs.foldl facetStep ev).getD [])
      = alookup v ((fs.foldl facetStep ev').getD []) := by
  induction fs generalizing ev ev' with
  | nil => exact h
  | cons f fs ih =>
    refine ih _ _ ?_
    rw [facetStep_alookup, facetStep_alookup, h]

theorem foldl_facetStep_alookup_hit (fs : List XElem) (v : String) :
    (∃ f ∈ fs, facetHits f v = true) →
    ∀ ev ev' : Option (List (String × String)),
      alookup v ((fs.foldl facetStep ev).getD [])
        = alookup v ((fs.foldl facetStep ev').getD []) := by
  induction fs with
  | nil => rintro ⟨f, hf, _⟩; cases hf
  | cons f fs ih =>
    rintro ⟨g, hg, hhit⟩ ev ev'
    rcases List.mem_cons.mp hg with rfl | hg2
    · refine foldl_facetStep_alookup_congr fs v _ _ ?_
      rw [facetStep_alookup, facetStep_alookup]
      simp [hhit]
    · exact ih ⟨g, hg2, hhit⟩ _ _

theorem foldl_facetStep_alookup_miss (fs : List XElem) (k : String) :
    (∀ f ∈ fs, facetHits f k = false) →
    ∀ ev : Option (List (String × String)),
      alookup k ((fs.foldl facetStep ev).getD []) = alookup k (ev.getD []) := by
  induction fs with
  | nil => intro _ ev; rfl
  | cons f fs ih =>
    intro h ev
    have h1 := h f (List.mem_cons_self f fs)
    rw [List.foldl_cons, ih (fun g hg => h g (List.mem_cons_of_mem f hg)), facetStep_alookup]
    simp [h1]

theorem stepLine_nodup_values (st : EnumState) (l : List Char)
    (h : (st.values.map Prod.fst).Nodup) :
    ((stepLine st l).values.map Prod.fst).Nodup := by
  unfold stepLine
  cases hc : classifyLine l with
  | range r => simp only [hc]; exact h
  | single k v => simp only [hc]; exact nodup_keys_dinsert k v st.values h
  | skip => simp only [hc]; exact h

theorem foldl_stepLine_nodup (ls : List (List Char)) (st : EnumState)
    (h : (st.values.map Prod.fst).Nodup) :
    (((ls.foldl stepLine st).values).map Prod.fst).Nodup := by
  induction ls generalizing st with
  | nil => exact h
  | cons l ls ih => exact ih _ (stepLine_nodup_values st l h)

theorem optNE_getD (l : List α) : (optNE l).getD [] = l := by
  cases l <;> rfl

theorem parseEnumValues_nodup (t : String) :
    ((((parseEnumValues t).1).getD []).map Prod.fst).Nodup := by
  unfold parseEnumValues
  split
  · simp
  · rw [optNE_getD]
    exact foldl_stepLine_nodup (splitLines t.toList) ⟨[], []⟩ (by simp)

theorem extractDocumentation_snd_shape (e : XElem) :
    (extractDocumentation e).2 = none ∨
    ∃ t, (extractDocumentation e).2 = some ((parseEnumValues t).1, (parseEnumValues t).2) := by
  unfold extractDocumentation
  cases h1 : findDesc e (xsT "annotation") with
  | none => simp only [h1]; exact Or.inl trivial
  | some ann =>
    simp only [h1]
    cases h2 : findDesc ann (xsT "documentation") with
    | none => simp only [h2]; exact Or.inl trivial
    | some docEl =>
      simp only [h2]
      split
      · exact Or.inr ⟨docTextOf docEl, rfl⟩
      · exact Or.inl rfl

theorem docEnumValues_shape (te : XElem) :
    docEnumValues te = none ∨ ∃ t, docEnumValues te = (parseEnumValues t).1 := by
  unfold docEnumValues
  rcases extractDocumentation_snd_shape te with h | ⟨t, h⟩
  · rw [h]; exact Or.inl rfl
  · rw [h]; exact Or.inr ⟨t, rfl⟩

theorem docEnumValues_nodup (te : XElem) :
    (((docEnumValues te).getD []).map Prod.fst).Nodup := by
  rcases docEnumValues_shape te with h | ⟨t, h⟩
  · rw [h]; simp
  · rw [h]; exact parseEnumValues_nodup t

/-- C4 (counterexample): a simple type whose restriction holds a single
`<enumeration value=""/>` facet yields `enum_values = some []`: no entry is
keyed by the facet's literal (empty) value string, because the source skips
falsy facet values (`if value:`). -/
theorem C4_counterexample_empty_value_facet :
    findDesc teEmptyFacet (xsT "restriction") = some restrEmptyFacet
    ∧ findAllDesc restrEmptyFacet (xsT "enumeration") = [emptyValFacet]
    ∧ emptyValFacet.attr "value" = some ""
    ∧ (extractTypeInfo teEmptyFacet).enum_values = some [] :=
  ⟨rfl, rfl, rfl, rfl⟩

/-- C4: for a type whose restriction holds enumeration facets, `enum_values`
is populated (`some m`), `m` has no duplicate keys, every facet with a
nonempty value contributes an entry keyed by that literal value, lookups at
facet-hit keys are independent of the documentation-mined starting map
(restriction wins), and lookups at keys no facet hits read the
documentation-mined map unchanged (extend). -/
theorem C4_restriction_facet_entries (te r : XElem)
    (hr : findDesc te (xsT "restriction") = some r)
    (hne : findAllDesc r (xsT "enumeration") ≠ []) :
    ∃ m, (extractTypeInfo te).enum_values = some m
      ∧ (m.map Prod.fst).Nodup
      ∧ (∀ f ∈ findAllDesc r (xsT "enumeration"), ∀ v, facetHits f v = true →
          v ∈ m.map Prod.fst)
      ∧ (∀ f ∈ findAllDesc r (xsT "enumeration"), ∀ v, facetHits f v = true →
          ∀ ev', alookup v
              (((findAllDesc r (xsT "enumeration")).foldl facetStep ev').getD [])
            = alookup v m)
      ∧ (∀ k, (∀ f ∈ findAllDesc r (xsT "enumeration"), facetHits f k = false) →
          alookup k m = alookup k ((docEnumValues te).getD [])) := by
  have hev : (extractTypeInfo te).enum_values
      = (findAllDesc r (xsT "enumeration")).foldl facetStep (docEnumValues te) := by
    unfold extractTypeInfo
    rw [hr]
  have hsome : ((findAllDesc r (xsT "enumeration")).foldl facetStep
      (docEnumValues te)).isSome = true :=
    foldl_facetStep_isSome_of_ne _ _ hne
  set m := ((findAllDesc r (xsT "enumeration")).foldl facetStep (docEnumValues te)).getD []
    with hm
  have heq : (findAllDesc r (xsT "enumeration")).foldl facetStep (docEnumValues te)
      = some m := by
    rw [hm]
    cases hx : (findAllDesc r (xsT "enumeration")).foldl facetStep (docEnumValues te) with
    | none => rw [hx] at hsome; cases hsome
    | some l => rfl
  refine ⟨m, by rw [hev, heq], ?_, ?_, ?_, ?_⟩
  · exact foldl_facetStep_nodup_keys _ _ (docEnumValues_nodup te)
  · intro f hf v hv
    exact foldl_facetStep_mem_keys_hit _ _ v ⟨f, hf, hv⟩
  · intro f hf v hv ev'
    exact foldl_facetStep_alookup_hit _ v ⟨f, hf, hv⟩ ev' (docEnumValues te)
  · intro k hk
    exact foldl_facetStep_alookup_miss _ k hk (docEnumValues te)

/-- Witness for C4 on a type with doc-mined values `0 → Off`, `1 → On` and
restriction facets for `1` (documented) and `2`. -/
theorem C4_restriction_facet_entries_witness :
    (findDesc teC4 (xsT "restriction") = some restrC4
      ∧ findAllDesc restrC4 (xsT "enumeration") ≠ [])
    ∧ ∃ m, (extractTypeInfo teC4).enum_values = some m
      ∧ (m.map Prod.fst).Nodup
      ∧ (∀ f ∈ findAllDesc restrC4 (xsT "enumeration"), ∀ v, facetHits f v = true →
          v ∈ m.map Prod.fst)
      ∧ (∀ f ∈ findAllDesc restrC4 (xsT "enumeration"), ∀ v, facetHits f v = true →
          ∀ ev', alookup v
              (((findAllDesc restrC4 (xsT "enumeration")).foldl facetStep ev').getD [])
            = alookup v m)
      ∧ (∀ k, (∀ f ∈ findAllDesc restrC4 (xsT "enumeration"), facetHits f k = false) →
          alookup k m = alookup k ((docEnumValues teC4).getD [])) := by
  have hne : findAllDesc restrC4 (xsT "enumeration") ≠ [] := by
    rw [show findAllDesc restrC4 (xsT "enumeration") = [facetC4a, facetC4b] from rfl]
    exact List.cons_ne_nil _ _
  exact ⟨⟨rfl, hne⟩, C4_restriction_facet_entries teC4 restrC4 rfl hne⟩

/-! ## C9: query parameters only on GET -/

/-- C9: for every method whose lowered verb is a standard non-GET verb, an
operation is produced whose `parameters` entry holds exactly the
path-template placeholder parameters (absent when the path has none): the
declared WADL request parameters are dropped regardless of `m.request`. -/
theorem C9_nonget_drops_declared_params (schemaNames : List String)
    (resId resDesc : Option String) (path : String) (m : MethodInfo)
    (hv : pyLowerS (m.name.getD "") ∈ ["post", "put", "patch", "delete", "head", "options"]) :
    ∃ o, methodToOperation schemaNames resId resDesc path m = some o
      ∧ olookup "parameters" o =
          (if (findPathParams path.toList).isEmpty then none
           else some (.arr ((findPathParams path.toList).map pathParamDef))) := by
  simp only [List.mem_cons, List.not_mem_nil, or_false] at hv
  have hmem : pyLowerS (m.name.getD "")
      ∈ ["get", "post", "put", "delete", "patch", "head", "options"] := by
    rcases hv with h | h | h | h | h | h <;> simp [h]
  have hget : pyLowerS (m.name.getD "") ≠ "get" := by
    rcases hv with h | h | h | h | h | h <;> (rw [h]; decide)
  simp only [methodToOperation]
  rw [if_neg (not_not_intro hmem)]
  refine ⟨_, rfl, ?_⟩
  rw [if_neg (show ¬(pyLowerS (m.name.getD "") = "get" ∧ m.request.isSome = true) from
    fun hc => hget hc.1)]
  simp only [olookup_append, oalt]
  rw [olookup_if_single _ "parameters" "description" _ (by decide),
    olookup_if_single _ "parameters" "requestBody" _ (by decide),
    olookup_singleton_ne "parameters" "responses" _ (by decide)]
  cases hfp : findPathParams path.toList with
  | nil => simp [hfp, olookup, oalt]
  | cons p ps => simp [hfp, olookup, oalt]

/-- Witness for C9: a POST method with a declared request parameter on a
path with one placeholder; the operation's parameters are the placeholder
only. -/
theorem C9_nonget_drops_declared_params_witness :
    pyLowerS ((MethodInfo.name mC9).getD "") ∈
        ["post", "put", "patch", "delete", "head", "options"]
    ∧ ∃ o, methodToOperation ["Thing"] (some "edev") (some "End device")
          "/edev/\x7bid1\x7d" mC9 = some o
        ∧ olookup "parameters" o =
            (if (findPathParams ("/edev/\x7bid1\x7d" : String).toList).isEmpty then none
             else some (.arr ((findPathParams ("/edev/\x7bid1\x7d" : String).toList).map
               pathParamDef))) :=
  ⟨by decide,
   C9_nonget_drops_declared_params ["Thing"] (some "edev") (some "End device")
     "/edev/\x7bid1\x7d" mC9 (by decide)⟩

/-! ## C10: required-marking in generate_json_schema -/

theorem mem_snd_foldl_elemStep (types : List (String × TypeInfo)) (d e : Bool)
    (els : List ElemInfo) (acc : List (Option String × JValue) × List (Option String))
    (n : Option String) :
    n ∈ (els.foldl (elemStep types d e) acc).2 ↔
      n ∈ acc.2 ∨ ∃ el ∈ els, el.name = n ∧ el.minOccurs = "1"
        ∧ (elemPropSchema types d e el).isSome := by
  induction els generalizing acc with
  | nil => simp
  | cons el els ih =>
    rw [List.foldl_cons, ih]
    have hstep : n ∈ (elemStep types d e acc el).2 ↔
        n ∈ acc.2 ∨ (el.name = n ∧ el.minOccurs = "1"
          ∧ (elemPropSchema types d e el).isSome) := by
      unfold elemStep
      cases hps : elemPropSchema types d e el with
      | none => simp [hps]
      | some o =>
        simp only [hps]
        by_cases hmo : el.minOccurs = "1"
        · simp [hmo, List.mem_append, List.mem_singleton, eq_comm]
        · simp [hmo]
    rw [hstep]
    simp only [List.mem_cons]
    constructor
    · rintro ((h | h) | ⟨x, hx, hp⟩)
      · exact Or.inl h
      · exact Or.inr ⟨el, Or.inl rfl, h⟩
      · exact Or.inr ⟨x, Or.inr hx, hp⟩
    · rintro (h | ⟨x, (rfl | hx), hp⟩)
      · exact Or.inl (Or.inl h)
      · exact Or.inl (Or.inr hp)
      · exact Or.inr ⟨x, hx, hp⟩

theorem mem_snd_foldl_attrStep (types : List (String × TypeInfo)) (d e : Bool)
    (ats : List AttrInfo) (acc : List (Option String × JValue) × List (Option String))
    (n : Option String) :
    n ∈ (ats.foldl (attrStep types d e) acc).2 ↔
      n ∈ acc.2 ∨ ∃ a ∈ ats, a.name = n ∧ a.use = "required"
        ∧ (attrPropSchema types d e a).isSome := by
  induction ats generalizing acc with
  | nil => simp
  | cons a ats ih =>
    rw [List.foldl_cons, ih]
    have hstep : n ∈ (attrStep types d e acc a).2 ↔
        n ∈ acc.2 ∨ (a.name = n ∧ a.use = "required"
          ∧ (attrPropSchema types d e a).isSome) := by
      unfold attrStep
      cases hps : attrPropSchema types d e a with
      | none => simp [hps]
      | some o =>
        simp only [hps]
        by_cases hu : a.use = "required"
        · simp [hu, List.mem_append, List.mem_singleton, eq_comm]
        · simp [hu]
    rw [hstep]
    simp only [List.mem_cons]
    constructor
    · rintro ((h | h) | ⟨x, hx, hp⟩)
      · exact Or.inl h
      · exact Or.inr ⟨a, Or.inl rfl, h⟩
      · exact Or.inr ⟨x, Or.inr hx, hp⟩
    · rintro (h | ⟨x, (rfl | hx), hp⟩)
      · exact Or.inl (Or.inl h)
      · exact Or.inl (Or.inr hp)
      · exact Or.inr ⟨x, hx, hp⟩

/-- C10 (counterexample): a type whose single element has `minOccurs = "1"`
but an empty-string `type` attribute contributes nothing to `required`
(its property schema is `None`, so the `required`-marking is skipped). -/
theorem C10_counterexample_minoccurs_one_not_required :
    infoEmptyType.elements.map (fun el => (el.minOccurs, el.type.isSome)) = [("1", true)]
    ∧ (buildTypeSchema [] true true infoEmptyType).required = [] :=
  ⟨rfl, rfl⟩

/-- C10: a name is listed in a type's `required` array iff it belongs to an
element with `minOccurs = "1"` whose property schema was produced, or to an
attribute with `use = "required"` whose property schema was produced.  (The
`type`-presence hypotheses confine the statement to inputs on which the
source does not raise `AttributeError` on a `None` type.) -/
theorem C10_required_iff (types : List (String × TypeInfo)) (d e : Bool) (info : TypeInfo)
    (n : Option String)
    (hel : ∀ el ∈ info.elements, el.type.isSome = true)
    (hat : ∀ a ∈ info.attributes, a.type.isSome = true) :
    n ∈ (buildTypeSchema types d e info).required ↔
      (∃ el ∈ info.elements, el.name = n ∧ el.minOccurs = "1"
        ∧ (elemPropSchema types d e el).isSome)
      ∨ (∃ a ∈ info.attributes, a.name = n ∧ a.use = "required"
        ∧ (attrPropSchema types d e a).isSome) := by
  unfold buildTypeSchema
  simp only []
  rw [mem_snd_foldl_attrStep, mem_snd_foldl_elemStep]
  simp

/-- Witness for C10 on a type with one mandatory element and one required
attribute. -/
theorem C10_required_iff_witness :
    ((∀ el ∈ infoC10.elements, el.type.isSome = true)
      ∧ (∀ a ∈ infoC10.attributes, a.type.isSome = true))
    ∧ ((some "a") ∈ (buildTypeSchema [] true true infoC10).required ↔
        (∃ el ∈ infoC10.elements, el.name = some "a" ∧ el.minOccurs = "1"
          ∧ (elemPropSchema [] true true el).isSome)
        ∨ (∃ a ∈ infoC10.attributes, a.name = some "a" ∧ a.use = "required"
          ∧ (attrPropSchema [] true true a).isSome)) :=
  ⟨⟨by decide, by decide⟩,
   C10_required_iff [] true true infoC10 (some "a") (by decide) (by decide)⟩

end S2P
